import Mathlib

/-!
Verification of the nuclide RPC transport core: a shallow embedding of
`ClientComponent` (service-framework client dispatcher) and of the
`NuclideServer` socket/session layer, with theorems settling the spec's
claims about request identifiers, promise and observable lifecycles,
reconnect behaviour, outbound queueing and error decoding.
-/

namespace Nuclide

/-! ## Wire-level data (client side)

Types mirroring the message literals built in `callRemoteFunction`,
`callRemoteMethod`, `createRemoteObject` and `disposeRemoteObject`, and the
response tuples `(hadError, error, result)` delivered by
`_handleSocketMessage`.
-/

/-- Return shape of a remote call: `'void' | 'promise' | 'observable'`. -/
inductive ReturnType
  | void
  | promise
  | observable
deriving DecidableEq, Repr

/-- Request payload: the type-specific fields of the five request message
literals (`FunctionCall`, `MethodCall`, `NewObject`, `DisposeObject`,
`DisposeObservable`). -/
inductive Payload
  | functionCall (functionName : String) (args : List Nat)
  | methodCall (methodName : String) (objectId : Nat) (args : List Nat)
  | newObject (interfaceName : String) (args : List Nat)
  | disposeObject (objectId : Nat)
  | disposeObservable
deriving DecidableEq, Repr

/-- Whether a payload is the `DisposeObservable` message type. -/
def Payload.isDisposeObs : Payload → Bool
  | .disposeObservable => true
  | _ => false

/-- A request frame as passed to `this._socket.send`: every constructor in the
source sets `protocol: 'service_framework3_rpc'`, a `requestId`, and the
payload fields. -/
structure ReqMessage where
  protocol : String
  requestId : Nat
  payload : Payload
deriving DecidableEq, Repr

/-- The `result` slot of a response frame: a plain value for promise replies,
or `{type:'next', data}` / `{type:'completed'}` for observable replies. -/
inductive RespResult
  | value (v : Nat)
  | next (data : Nat)
  | completed
deriving DecidableEq, Repr

/-- An encoded error as received on the wire: `?(Object | string)`.  A JS
object carries optional `message`, `code` and `stack` fields. -/
inductive EncodedError
  | null
  | prim (s : String)
  | obj (message : Option String) (code : Option String) (stack : Option String)
deriving DecidableEq, Repr

/-- The value `decodeError` hands back to the caller: the reconstructed
`Error` (with `message`, `code`, `stack` copied), or the primitive / null
passed through unchanged. -/
inductive DecodedError
  | null
  | prim (s : String)
  | err (message : Option String) (code : Option String) (stack : Option String)
deriving DecidableEq, Repr

/-- Embedding of `decodeError` (part_003 lines 293-304): a non-null object is
turned into a fresh `Error` whose `message`, `code` and `stack` are assigned
from the encoded object; anything else (null or a primitive) is returned
as-is. -/
def decodeError : EncodedError → DecodedError
  | .null => .null
  | .prim s => .prim s
  | .obj m c k => .err m c k

/-- How a promise returned by `_sendMessageAndListenForResult` settled:
resolved with the response result, rejected with the decoded error, or
rejected by the `setTimeout` callback with the timeout message string
(which names the request id). -/
inductive Outcome
  | resolved (r : RespResult)
  | rejected (e : DecodedError)
  | timedOut (requestId : Nat)
deriving DecidableEq, Repr

/-- An event delivered to an observable subscriber: `observer.onNext`,
`observer.onError` or `observer.onCompleted`. -/
inductive ObsEvent
  | next (data : Nat)
  | error (e : DecodedError)
  | completed
deriving DecidableEq, Repr

/-- EventEmitter listener registered for a request id: `once` for the promise
branch, `on` for the observable branch. -/
inductive ListenerMode
  | once
  | onEach
deriving DecidableEq, Repr

/-! ## Association-list helpers

The EventEmitter's per-id listeners, the settled promises and the server's
`_clients` map are embedded as association lists.
-/

/-- First-match lookup in an association list. -/
def afind {κ α : Type} [BEq κ] : List (κ × α) → κ → Option α
  | [], _ => none
  | (k, v) :: rest, key => if k == key then some v else afind rest key

/-- Replace the first binding of a key, or append a fresh one. -/
def aset {κ α : Type} [BEq κ] : List (κ × α) → κ → α → List (κ × α)
  | [], key, v => [(key, v)]
  | (k, w) :: rest, key, v =>
      if k == key then (k, v) :: rest else (k, w) :: aset rest key v

/-- Drop every binding of a key (the effect of
`emitter.removeAllListeners(id)`). -/
def removeKey {α : Type} : List (Nat × α) → Nat → List (Nat × α)
  | [], _ => []
  | p :: rest, key =>
      if p.1 = key then removeKey rest key else p :: removeKey rest key

/-- Boolean membership in a list of naturals. -/
def bmem : List Nat → Nat → Bool
  | [], _ => false
  | x :: xs, k => if x = k then true else bmem xs k

/-- Remove the first occurrence of a natural from a list. -/
def removeNat : List Nat → Nat → List Nat
  | [], _ => []
  | x :: xs, k => if x = k then xs else x :: removeNat xs k

/-! ## Client dispatcher state -/

/-- State of one `ClientComponent` instance (part_003): the `_rpcRequestId`
counter, the EventEmitter listener table keyed by request id, the set of
armed promise timeout timers, every frame handed to `this._socket.send` in
order, the settled state of each promise-shaped call, the active observable
subscriptions, the events delivered to observers, the log of
`logger.warn` calls (none of the modelled paths — `_sendMessageAndListenForResult`,
`_handleSocketMessage`, the timeout, subscription and dispose callbacks —
contains a logger call, so no step appends to it), and the cold observables
returned by observable-shaped calls: keyed by request id, each holds the
message literal captured by its `Observable.create` factory, which is sent
only when the observable is subscribed. -/
structure ClientState where
  rpcRequestId : Nat
  listeners : List (Nat × ListenerMode)
  timers : List Nat
  sent : List ReqMessage
  settled : List (Nat × Outcome)
  subscriptions : List Nat
  delivered : List (Nat × ObsEvent)
  warnLog : List String
  observables : List (Nat × ReqMessage)
deriving DecidableEq, Repr

/-- Constructor state: `this._rpcRequestId = 1` and empty registries. -/
def initClient : ClientState :=
  ⟨1, [], [], [], [], [], [], [], []⟩

/-- The channel tag compared by the `invariant` checks.  Modelled from the
spec: the value of `SERVICE_FRAMEWORK3_CHANNEL` lives in `./config`, which is
not under src/; the spec fixes it to the transport's protocol identifier,
the string the client writes into every frame's `protocol` field. -/
def SERVICE_FRAMEWORK3_CHANNEL : String := "service_framework3_rpc"

/-- One of the four public calls of `ClientComponent`. -/
inductive ClientCall
  | callRemoteFunction (functionName : String) (returnType : ReturnType) (args : List Nat)
  | callRemoteMethod (objectId : Nat) (methodName : String) (returnType : ReturnType) (args : List Nat)
  | createRemoteObject (interfaceName : String) (args : List Nat)
  | disposeRemoteObject (objectId : Nat)
deriving DecidableEq, Repr

/-- The message literal each call builds (lines 111-117, 139-146, 161-167,
182-187), given the request id obtained from `_generateRequestId`. -/
def ClientCall.message : ClientCall → Nat → ReqMessage
  | .callRemoteFunction functionName _ args, id =>
      ⟨"service_framework3_rpc", id, .functionCall functionName args⟩
  | .callRemoteMethod objectId methodName _ args, id =>
      ⟨"service_framework3_rpc", id, .methodCall methodName objectId args⟩
  | .createRemoteObject interfaceName args, id =>
      ⟨"service_framework3_rpc", id, .newObject interfaceName args⟩
  | .disposeRemoteObject objectId, id =>
      ⟨"service_framework3_rpc", id, .disposeObject objectId⟩

/-- The return shape passed to `_sendMessageAndListenForResult`:
`createRemoteObject` and `disposeRemoteObject` always use `'promise'`. -/
def ClientCall.returnType : ClientCall → ReturnType
  | .callRemoteFunction _ rt _ => rt
  | .callRemoteMethod _ _ rt _ => rt
  | .createRemoteObject _ _ => .promise
  | .disposeRemoteObject _ => .promise

/-- Settle the promise registered for a request id.  A JS promise keeps the
first resolution; later `resolve`/`reject` calls are no-ops. -/
def settle (s : ClientState) (id : Nat) (o : Outcome) : ClientState :=
  if (afind s.settled id).isSome then s
  else { s with settled := s.settled ++ [(id, o)] }

/-- Embedding of the observable's dispose function (lines 246-257), which Rx
invokes at most once per subscription (on unsubscribe, on completion and on
error): it removes all listeners for the request id and sends one
`DisposeObservable` frame bearing the original request id. -/
def disposeSubscription (s : ClientState) (id : Nat) : ClientState :=
  if bmem s.subscriptions id then
    { s with
        subscriptions := removeNat s.subscriptions id,
        listeners := removeKey s.listeners id,
        sent := s.sent ++ [⟨"service_framework3_rpc", id, .disposeObservable⟩] }
  else s

/-- Embedding of one of the four public calls: `_generateRequestId` returns
the counter and increments it (line 278), then
`_sendMessageAndListenForResult` (lines 199-263) acts per return shape:
`void` sends the frame and registers nothing; `promise` sends the frame and
registers a `once` listener plus a timeout timer; `observable` sends
nothing yet — it builds a cold observable whose `Observable.create` factory
(lines 225-258) captures the message, and only a later subscription runs
the factory (see `subscribeObservable`). -/
def applyCall (s : ClientState) (c : ClientCall) : ClientState :=
  let id := s.rpcRequestId
  let s' := { s with rpcRequestId := s.rpcRequestId + 1 }
  let m := c.message id
  match c.returnType with
  | .void => { s' with sent := s'.sent ++ [m] }
  | .promise =>
      { s' with
          sent := s'.sent ++ [m],
          listeners := s'.listeners ++ [(id, .once)],
          timers := s'.timers ++ [id] }
  | .observable => { s' with observables := s'.observables ++ [(id, m)] }

/-- Embedding of subscribing to the cold observable returned by an
observable-shaped call: `Observable.create` runs its factory at each
subscription (lines 225-258) — the factory sends the captured message and
registers the `on` listener for the call's fixed request id.  The machine
represents at most one active subscription per observable at a time (a
second concurrent subscription would install a second listener for the
same id, which the single-binding listener table cannot represent);
re-subscribing after the previous subscription was disposed is represented
and re-sends the same message. -/
def subscribeObservable (s : ClientState) (id : Nat) : ClientState :=
  match afind s.observables id with
  | none => s
  | some m =>
      if bmem s.subscriptions id then s
      else
        { s with
            sent := s.sent ++ [m],
            listeners := s.listeners ++ [(id, .onEach)],
            subscriptions := s.subscriptions ++ [id] }

/-- Body of the `once` listener registered by the promise branch (lines
212-214): `hadError ? reject(decodeError(error)) : resolve(result)`, after
the emitter has removed the one-shot listener. -/
def emitOnce (s : ClientState) (id : Nat) (hadError : Bool)
    (error : EncodedError) (result : RespResult) : ClientState :=
  settle { s with listeners := removeKey s.listeners id } id
    (if hadError then .rejected (decodeError error) else .resolved result)

/-- Body of the `on` listener registered by the observable branch (lines
229-242): an error frame feeds `observer.onError` and — through Rx, which
disposes an errored subscription — runs the dispose function; a
`completed` frame feeds `observer.onCompleted` and likewise disposes; a
`next` frame feeds `observer.onNext`; any other result shape is ignored. -/
def emitOnEach (s : ClientState) (id : Nat) (hadError : Bool)
    (error : EncodedError) (result : RespResult) : ClientState :=
  match hadError, result with
  | true, _ =>
      disposeSubscription
        { s with delivered := s.delivered ++ [(id, .error (decodeError error))] } id
  | false, .completed =>
      disposeSubscription
        { s with delivered := s.delivered ++ [(id, .completed)] } id
  | false, .next d => { s with delivered := s.delivered ++ [(id, .next d)] }
  | false, .value _ => s

/-- Embedding of the EventEmitter dispatch performed by
`_handleSocketMessage` (line 274) together with the registered listener
bodies.  With no listener for the id, `emit` does nothing: the frame is
dropped silently. -/
def emitResponse (s : ClientState) (id : Nat) (hadError : Bool)
    (error : EncodedError) (result : RespResult) : ClientState :=
  match afind s.listeners id with
  | none => s
  | some .once => emitOnce s id hadError error result
  | some .onEach => emitOnEach s id hadError error result

/-- Embedding of the `setTimeout` callback of the promise branch (lines
216-222): when an armed timer fires it removes all listeners for the id and
rejects with the timeout message; the JS timer fires exactly once per arm. -/
def fireTimer (s : ClientState) (id : Nat) : ClientState :=
  if bmem s.timers id then
    settle
      { s with
          timers := removeNat s.timers id,
          listeners := removeKey s.listeners id } id (.timedOut id)
  else s

/-- An event observable by one `ClientComponent` instance. -/
inductive ClientEvent
  | call (c : ClientCall)
  | frame (channel : String) (requestId : Nat) (hadError : Bool)
      (error : EncodedError) (result : RespResult)
  | timerFire (requestId : Nat)
  | subscribe (requestId : Nat)
  | unsubscribe (requestId : Nat)
deriving DecidableEq, Repr

/-- One step of the client dispatcher.  An inbound frame goes through
`_handleSocketMessage` (lines 270-275), whose
`invariant(channel === SERVICE_FRAMEWORK3_CHANNEL)` throws on a channel
mismatch — modelled as `none`. -/
def clientStep (s : ClientState) : ClientEvent → Option ClientState
  | .call c => some (applyCall s c)
  | .frame ch id h e r =>
      if ch = SERVICE_FRAMEWORK3_CHANNEL then some (emitResponse s id h e r)
      else none
  | .timerFire id => some (fireTimer s id)
  | .subscribe id => some (subscribeObservable s id)
  | .unsubscribe id => some (disposeSubscription s id)

/-- Run a list of client events; `none` as soon as a step throws. -/
def clientRun (s : ClientState) : List ClientEvent → Option ClientState
  | [] => some s
  | e :: es => (clientStep s e).bind (fun s' => clientRun s' es)

/-- The frames emitted by the four public calls: everything sent except the
`DisposeObservable` frames produced by the dispose function. -/
def requestFrames (s : ClientState) : List ReqMessage :=
  s.sent.filter (fun m => ! m.payload.isDisposeObs)

/-! ## Server session layer (`NuclideServer`, pkg/nuclide/server/lib/main.js)

The `_onConnection` / `_onSocketMessage` / `_sendSocketMessage` triple is
embedded as a state machine over the `_clients` map.  Sockets are named by
numbers; a frame's wrapper object identity (the `{data}` object pushed on
`messageQueue`, looked up again with `indexOf`) is embedded as a tag drawn
from a fresh-tag counter.
-/

/-- A queued outbound frame: the `{data}` wrapper object pushed on
`client.messageQueue`, with `tag` standing for the wrapper's object
identity. -/
structure QMsg where
  tag : Nat
  data : String
deriving DecidableEq, Repr

/-- One `SocketClient` record: `{id, subscriptions, socket, messageQueue}`.
The subscriptions map is opaque here — no code in main.js touches it. -/
structure SocketClient where
  id : String
  subscriptions : List String
  socket : Option Nat
  messageQueue : List QMsg
deriving DecidableEq, Repr

/-- State of the `NuclideServer` socket layer: the `_clients` map, which
client each socket attached to (the `client` variable captured by that
socket's handlers), the sockets on which `.close()` was called, a fresh-tag
counter for wrapper identities, the `socket.send` calls issued (socket,
data) in order, the sends whose callback reported success, the frames
passed to `ServerComponent.handleMessage`, and the number of
`logger.warn` calls (one per failed send). -/
structure ServerState where
  clients : List (String × SocketClient)
  socketOwner : List (Nat × String)
  closedSockets : List Nat
  nextTag : Nat
  attempts : List (Nat × String)
  delivered : List (Nat × Nat × String)
  handled : List (String × String)
  warnings : Nat
deriving DecidableEq, Repr

/-- Server state at construction: `this._clients = {}`. -/
def initServer : ServerState :=
  ⟨[], [], [], 0, [], [], [], 0⟩

/-- Remove the first queue entry with the given tag: the effect of
`messageQueue.splice(messageQueue.indexOf(message), 1)`, which removes
exactly the wrapper object found by identity. -/
def removeFirstTag : List QMsg → Nat → List QMsg
  | [], _ => []
  | m :: ms, t => if m.tag = t then ms else m :: removeFirstTag ms t

/-- Embedding of `_sendSocketMessage` (lines 352-372): wrap the data in a
fresh object, push it on the client's queue, and return if no socket is
attached; otherwise call `socket.send`, whose callback either removes the
wrapper from the queue (success) or logs a warning and leaves it queued
(failure).  The callback outcome is supplied by the `ok` oracle. -/
def sendSocketMessage (s : ServerState) (cid : String) (data : String) (ok : Bool) :
    ServerState :=
  match afind s.clients cid with
  | none => s
  | some c =>
    let m : QMsg := ⟨s.nextTag, data⟩
    match c.socket with
    | none =>
        { s with
            nextTag := s.nextTag + 1,
            clients := aset s.clients cid { c with messageQueue := c.messageQueue ++ [m] } }
    | some sid =>
        if ok then
          { s with
              nextTag := s.nextTag + 1,
              clients := aset s.clients cid
                { c with messageQueue := removeFirstTag (c.messageQueue ++ [m]) m.tag },
              attempts := s.attempts ++ [(sid, data)],
              delivered := s.delivered ++ [(sid, m.tag, data)] }
        else
          { s with
              nextTag := s.nextTag + 1,
              clients := aset s.clients cid { c with messageQueue := c.messageQueue ++ [m] },
              attempts := s.attempts ++ [(sid, data)],
              warnings := s.warnings + 1 }

/-- Re-send each frame spliced out of the queue, in order
(`client.messageQueue.splice(0).forEach(message =>
this._sendSocketMessage(localClient, message.data))`).  Each send consumes
one entry of the success oracle (missing entries default to success). -/
def flushQueue : ServerState → String → List QMsg → List Bool → ServerState
  | s, _, [], _ => s
  | s, cid, m :: ms, oks =>
      flushQueue (sendSocketMessage s cid m.data (oks.headD true)) cid ms oks.tail

/-- Embedding of the `socket.once('message', clientId => ...)` handler inside
`_onConnection` (lines 319-333): look up or create the `SocketClient` record,
close the previous socket if any, attach the new socket, and flush the
queued frames in insertion order through `_sendSocketMessage`. -/
def onClientIdMessage (s : ServerState) (sid : Nat) (cid : String) (oks : List Bool) :
    ServerState :=
  let c := (afind s.clients cid).getD ⟨cid, [], none, []⟩
  let s1 :=
    match c.socket with
    | some old => { s with closedSockets := s.closedSockets ++ [old] }
    | none => s
  let oldQueue := c.messageQueue
  let c1 := { c with socket := some sid, messageQueue := [] }
  let s2 := { s1 with
      clients := aset s1.clients cid c1,
      socketOwner := s1.socketOwner ++ [(sid, cid)] }
  flushQueue s2 cid oldQueue oks

/-- Embedding of the `socket.on('close', ...)` handler (lines 335-343): if
this socket never delivered a client id, return; otherwise detach the
session's socket only when the closing socket is still the attached one
(`client.socket === socket`). -/
def onSocketClose (s : ServerState) (sid : Nat) : ServerState :=
  match afind s.socketOwner sid with
  | none => s
  | some cid =>
      match afind s.clients cid with
      | none => s
      | some c =>
          if c.socket = some sid then
            { s with clients := aset s.clients cid { c with socket := none } }
          else s

/-- A parsed inbound frame as seen by `_onSocketMessage` after `JSON.parse`:
an optional `protocol` field and the rest of the body. -/
structure WireMsg where
  protocol : Option String
  body : String
deriving DecidableEq, Repr

/-- Embedding of `_onSocketMessage` (lines 346-350):
`invariant(message.protocol && message.protocol === SERVICE_FRAMEWORK3_CHANNEL)`
throws — modelled as `none` — when the field is missing, empty or different;
otherwise the frame is handed to `ServerComponent.handleMessage`. -/
def onSocketMessage (s : ServerState) (cid : String) (m : WireMsg) :
    Option ServerState :=
  match m.protocol with
  | none => none
  | some p =>
      if p = SERVICE_FRAMEWORK3_CHANNEL then
        some { s with handled := s.handled ++ [(cid, m.body)] }
      else none

/-- An event observable by the server socket layer. -/
inductive ServerEvent
  | clientIdMessage (socketId : Nat) (clientId : String) (oks : List Bool)
  | send (clientId : String) (data : String) (ok : Bool)
  | inbound (clientId : String) (m : WireMsg)
  | socketClose (socketId : Nat)
deriving DecidableEq, Repr

/-- One step of the server socket layer. -/
def serverStep (s : ServerState) : ServerEvent → Option ServerState
  | .clientIdMessage sid cid oks => some (onClientIdMessage s sid cid oks)
  | .send cid data ok => some (sendSocketMessage s cid data ok)
  | .inbound cid m => onSocketMessage s cid m
  | .socketClose sid => some (onSocketClose s sid)

/-- Run a list of server events; `none` as soon as a step throws. -/
def serverRun (s : ServerState) : List ServerEvent → Option ServerState
  | [] => some s
  | e :: es => (serverStep s e).bind (fun s' => serverRun s' es)

/-! ## Helper lemmas on association lists and `countUpFrom` -/

/-! ## Invariants, views and concrete scenario states used by the theorems -/

/-- Client state after two promise-shaped calls. -/
def csTwoCalls : ClientState :=
  ⟨3, [(1, .once), (2, .once)], [1, 2],
    [⟨"service_framework3_rpc", 1, .newObject "Session" []⟩,
     ⟨"service_framework3_rpc", 2, .disposeObject 7⟩],
    [], [], [], [], []⟩

/-- Every key in the client's registries is below the request-id counter —
ids are handed out by `_generateRequestId` before anything is registered
under them — every emitted frame bears an already-allocated id, and a cold
observable stores the message built for its own id. -/
def ClientInv (s : ClientState) : Prop :=
  (∀ p ∈ s.listeners, p.1 < s.rpcRequestId) ∧
  (∀ t ∈ s.timers, t < s.rpcRequestId) ∧
  (∀ p ∈ s.settled, p.1 < s.rpcRequestId) ∧
  (∀ t ∈ s.subscriptions, t < s.rpcRequestId) ∧
  (∀ p ∈ s.observables, p.1 < s.rpcRequestId ∧ p.2.requestId = p.1) ∧
  (∀ m ∈ s.sent, m.requestId < s.rpcRequestId)

/-- The parts of the client state that concern one request id: the registered
listener, whether a timeout timer is armed, the settled outcome, whether an
observable subscription is active, and the stored cold observable. -/
def entryView (s : ClientState) (id : Nat) :
    Option ListenerMode × Bool × Option Outcome × Bool × Option ReqMessage :=
  (afind s.listeners id, bmem s.timers id, afind s.settled id,
    bmem s.subscriptions id, afind s.observables id)

/-- Whether an event concerns the given request id (an inbound frame for it,
its timeout timer firing, or a subscribe or unsubscribe for it). -/
def targets (id : Nat) : ClientEvent → Bool
  | .call _ => false
  | .frame _ rid _ _ _ => rid == id
  | .timerFire rid => rid == id
  | .subscribe rid => rid == id
  | .unsubscribe rid => rid == id

/-- Client state after a promise call settled by its first response; the
second response frame for id 1 leaves this state untouched.  The armed
timer is still listed: the source never clears the timeout. -/
def csSettled : ClientState :=
  ⟨2, [], [1],
    [⟨"service_framework3_rpc", 1, .newObject "Session" []⟩],
    [(1, .resolved (.value 5))], [], [], [], []⟩

/-- Client state after an observable-shaped call was made and its returned
observable subscribed: the factory ran, so the frame is sent, an `on`
listener and an active subscription exist for id 1, and no timer. -/
def csObservable : ClientState :=
  ⟨2, [(1, .onEach)], [],
    [⟨"service_framework3_rpc", 1, .functionCall "tail" []⟩],
    [], [1], [], [],
    [(1, ⟨"service_framework3_rpc", 1, .functionCall "tail" []⟩)]⟩

/-- Client state after one observable-shaped call whose returned observable
has not been subscribed yet: the built message is stored cold in
`observables` and nothing has been sent — `Observable.create`'s factory,
which holds the `this._socket.send(message)`, has not run. -/
def csColdObs : ClientState :=
  ⟨2, [], [], [], [], [], [], [],
    [(1, ⟨"service_framework3_rpc", 1, .functionCall "tail" []⟩)]⟩

/-- Client state with a pending promise entry for id 1. -/
def csPromisePending : ClientState :=
  ⟨2, [(1, .once)], [1],
    [⟨"service_framework3_rpc", 1, .newObject "Session" []⟩],
    [], [], [], [], []⟩

/-- The session record of the concrete reconnect scenario: attached to
socket 1 with frames `A`, `B` queued. -/
def svClient : SocketClient := ⟨"c", ["tail"], some 1, [⟨0, "A"⟩, ⟨1, "B"⟩]⟩

/-- A server with the one session `svClient` registered. -/
def svWithQueue : ServerState :=
  ⟨[("c", svClient)], [(1, "c")], [], 2, [], [], [], 0⟩

/-- A session for client `c` with a socket but an empty queue. -/
def svClientEmpty : SocketClient := ⟨"c", [], some 1, []⟩

/-- A server with the one empty-queue session `svClientEmpty`. -/
def svEmptyQueue : ServerState :=
  ⟨[("c", svClientEmpty)], [(1, "c")], [], 0, [], [], [], 0⟩

/-- A session for client `c` with no socket attached. -/
def svClientNoSock : SocketClient := ⟨"c", [], none, []⟩

/-- A server whose one session has no socket. -/
def svNoSock : ServerState :=
  ⟨[("c", svClientNoSock)], [], [], 0, [], [], [], 0⟩

/-- The session of the C9 scenario: socket 2 is currently attached. -/
def svC9client : SocketClient := ⟨"c", [], some 2, []⟩

/-- A server where sockets 1 and 2 both attached to client `c` in the past
and socket 2 is current. -/
def svC9 : ServerState :=
  ⟨[("c", svC9client)], [(1, "c"), (2, "c")], [1], 0, [], [], [], 0⟩

theorem afind_append_of_none {κ α : Type} [BEq κ] (l₁ l₂ : List (κ × α)) (k : κ)
    (h : afind l₁ k = none) : afind (l₁ ++ l₂) k = afind l₂ k := by
  induction l₁ with
  | nil => simp
  | cons p rest ih =>
      by_cases hk : (p.1 == k) = true
      · simp [afind, hk] at h
      · simp [afind, hk] at h ⊢
        exact ih h

theorem afind_append_of_some {κ α : Type} [BEq κ] (l₁ l₂ : List (κ × α)) (k : κ) (v : α)
    (h : afind l₁ k = some v) : afind (l₁ ++ l₂) k = some v := by
  induction l₁ with
  | nil => simp [afind] at h
  | cons p rest ih =>
      by_cases hk : (p.1 == k) = true
      · simp [afind, hk] at h ⊢
        exact h
      · simp [afind, hk] at h ⊢
        exact ih h

theorem afind_none_of_forall_ne {α : Type} (l : List (Nat × α)) (k : Nat)
    (h : ∀ p ∈ l, p.1 ≠ k) : afind l k = none := by
  induction l with
  | nil => rfl
  | cons p rest ih =>
      have hp : p.1 ≠ k := h p (by simp)
      simp [afind, hp]
      exact ih (fun q hq => h q (by simp [hq]))

theorem afind_mem {α : Type} (l : List (Nat × α)) (k : Nat) (v : α)
    (h : afind l k = some v) : (k, v) ∈ l := by
  induction l with
  | nil => simp [afind] at h
  | cons p rest ih =>
      by_cases hk : (p.1 == k) = true
      · simp [afind, hk] at h
        have : p = (k, v) := by
          cases p
          simp at hk
          simp_all
        simp [this]
      · simp [afind, hk] at h
        simp [ih h]

theorem afind_removeKey_self {α : Type} (l : List (Nat × α)) (k : Nat) :
    afind (removeKey l k) k = none := by
  induction l with
  | nil => rfl
  | cons p rest ih =>
      by_cases hk : p.1 = k
      · simp [removeKey, hk, ih]
      · simp [removeKey, hk, afind, ih]

theorem afind_removeKey_ne {α : Type} (l : List (Nat × α)) (k k' : Nat)
    (h : k' ≠ k) : afind (removeKey l k') k = afind l k := by
  induction l with
  | nil => rfl
  | cons p rest ih =>
      by_cases hk : p.1 = k'
      · have : (p.1 == k) = false := by
          simp [hk]
          omega
        simp [removeKey, hk, afind, this, ih, h]
      · simp [removeKey, hk, afind, ih]

theorem afind_aset_self {κ α : Type} [BEq κ] [LawfulBEq κ] (l : List (κ × α)) (k : κ) (v : α) :
    afind (aset l k v) k = some v := by
  induction l with
  | nil => simp [aset, afind]
  | cons p rest ih =>
      by_cases hk : (p.1 == k) = true
      · simp [aset, hk, afind]
      · simp [aset, hk, afind, ih]

theorem afind_aset_ne {κ α : Type} [BEq κ] [LawfulBEq κ] (l : List (κ × α)) (k k' : κ) (v : α)
    (h : ¬ k' = k) : afind (aset l k v) k' = afind l k' := by
  induction l with
  | nil =>
      have : (k == k') = false := by
        simp
        exact fun hc => h hc.symm
      simp [aset, afind, this]
  | cons p rest ih =>
      by_cases hk : (p.1 == k) = true
      · have hne : (p.1 == k') = false := by
          simp at hk
          simp [hk]
          exact fun hc => h hc.symm
        simp [aset, hk, afind, hne]
      · simp only [aset, hk, if_false, Bool.false_eq_true, afind]
        split
        · rfl
        · exact ih

/-! ## Request-id counter (C1) -/

theorem requestFrames_settle (s : ClientState) (id : Nat) (o : Outcome) :
    requestFrames (settle s id o) = requestFrames s := by
  unfold settle
  split <;> rfl

theorem rpcRequestId_settle (s : ClientState) (id : Nat) (o : Outcome) :
    (settle s id o).rpcRequestId = s.rpcRequestId := by
  unfold settle
  split <;> rfl

theorem requestFrames_dispose (s : ClientState) (id : Nat) :
    requestFrames (disposeSubscription s id) = requestFrames s := by
  unfold disposeSubscription
  split
  · simp [requestFrames, List.filter_append, Payload.isDisposeObs]
  · rfl

theorem rpcRequestId_dispose (s : ClientState) (id : Nat) :
    (disposeSubscription s id).rpcRequestId = s.rpcRequestId := by
  unfold disposeSubscription
  split <;> rfl

theorem requestFrames_emit (s : ClientState) (id : Nat) (h : Bool)
    (e : EncodedError) (r : RespResult) :
    requestFrames (emitResponse s id h e r) = requestFrames s ∧
      (emitResponse s id h e r).rpcRequestId = s.rpcRequestId := by
  cases hfind : afind s.listeners id with
  | none =>
      unfold emitResponse
      rw [hfind]
      exact ⟨rfl, rfl⟩
  | some mode =>
      unfold emitResponse
      rw [hfind]
      cases mode with
      | once =>
          cases h
          · exact ⟨requestFrames_settle _ _ _, rpcRequestId_settle _ _ _⟩
          · exact ⟨requestFrames_settle _ _ _, rpcRequestId_settle _ _ _⟩
      | onEach =>
          cases h
          · cases r
            · exact ⟨rfl, rfl⟩
            · exact ⟨rfl, rfl⟩
            · exact ⟨requestFrames_dispose _ _, rpcRequestId_dispose _ _⟩
          · exact ⟨requestFrames_dispose _ _, rpcRequestId_dispose _ _⟩

theorem requestFrames_fireTimer (s : ClientState) (id : Nat) :
    requestFrames (fireTimer s id) = requestFrames s ∧
      (fireTimer s id).rpcRequestId = s.rpcRequestId := by
  unfold fireTimer
  split
  · rw [requestFrames_settle, rpcRequestId_settle]
    exact ⟨rfl, rfl⟩
  · exact ⟨rfl, rfl⟩

theorem applyCall_rpcRequestId (s : ClientState) (c : ClientCall) :
    (applyCall s c).rpcRequestId = s.rpcRequestId + 1 := by
  unfold applyCall
  cases c.returnType <;> rfl

theorem applyCall_sync_sent (s : ClientState) (c : ClientCall)
    (h : ClientCall.returnType c ≠ .observable) :
    (applyCall s c).sent = s.sent ++ [c.message s.rpcRequestId] := by
  unfold applyCall
  cases hrt : c.returnType
  · rfl
  · rfl
  · exact absurd hrt h

theorem applyCall_observable_effects (s : ClientState) (c : ClientCall)
    (h : ClientCall.returnType c = .observable) :
    (applyCall s c).sent = s.sent ∧
      (applyCall s c).observables =
        s.observables ++ [(s.rpcRequestId, c.message s.rpcRequestId)] := by
  unfold applyCall
  rw [h]
  exact ⟨rfl, rfl⟩

theorem subscribe_active_eq (s : ClientState) (id : Nat) (m : ReqMessage)
    (hobs : afind s.observables id = some m)
    (hsub : bmem s.subscriptions id = false) :
    subscribeObservable s id =
      { s with
          sent := s.sent ++ [m],
          listeners := s.listeners ++ [(id, .onEach)],
          subscriptions := s.subscriptions ++ [id] } := by
  unfold subscribeObservable
  rw [hobs, hsub]
  rfl

/-! ## Promise lifecycle infrastructure (C2, C6, C7, C8) -/

theorem afind_single_ne {α : Type} (k id : Nat) (v : α) (h : k ≠ id) :
    afind [(k, v)] id = none := by
  simp [afind, h]

theorem afind_single_self {α : Type} (id : Nat) (v : α) :
    afind [(id, v)] id = some v := by
  simp [afind]

theorem afind_append_single_ne {α : Type} (l : List (Nat × α)) (k id : Nat) (v : α)
    (h : k ≠ id) : afind (l ++ [(k, v)]) id = afind l id := by
  cases hl : afind l id with
  | none => rw [afind_append_of_none _ _ _ hl, afind_single_ne _ _ _ h]
  | some w => rw [afind_append_of_some _ _ _ _ hl]

theorem afind_append_self_of_none {α : Type} (l : List (Nat × α)) (id : Nat) (v : α)
    (h : afind l id = none) : afind (l ++ [(id, v)]) id = some v := by
  rw [afind_append_of_none _ _ _ h, afind_single_self]

theorem afind_removeKey_none {α : Type} (l : List (Nat × α)) (k id : Nat)
    (h : afind l id = none) : afind (removeKey l k) id = none := by
  by_cases hk : k = id
  · subst hk
    exact afind_removeKey_self l k
  · rw [afind_removeKey_ne _ _ _ hk]
    exact h

theorem mem_removeKey {α : Type} (l : List (Nat × α)) (k : Nat) (p : Nat × α)
    (h : p ∈ removeKey l k) : p ∈ l := by
  induction l with
  | nil => simp [removeKey] at h
  | cons q rest ih =>
      by_cases hq : q.1 = k
      · simp [removeKey, hq] at h
        simp [ih h]
      · simp [removeKey, hq] at h
        rcases h with h | h
        · simp [h]
        · simp [ih h]

theorem mem_removeNat (l : List Nat) (k x : Nat) (h : x ∈ removeNat l k) : x ∈ l := by
  induction l with
  | nil => simp [removeNat] at h
  | cons y rest ih =>
      by_cases hy : y = k
      · simp [removeNat, hy] at h
        simp [h]
      · simp [removeNat, hy] at h
        rcases h with h | h
        · simp [h]
        · simp [ih h]

theorem bmem_append_single_ne (l : List Nat) (a b : Nat) (h : a ≠ b) :
    bmem (l ++ [a]) b = bmem l b := by
  induction l with
  | nil => simp [bmem, h]
  | cons x xs ih =>
      by_cases hx : x = b
      · simp [bmem, hx]
      · simp [bmem, hx, ih]

theorem bmem_append_self (l : List Nat) (a : Nat) : bmem (l ++ [a]) a = true := by
  induction l with
  | nil => simp [bmem]
  | cons x xs ih =>
      by_cases hx : x = a
      · simp [bmem, hx]
      · simp [bmem, hx, ih]

theorem bmem_removeNat_ne (l : List Nat) (k k' : Nat) (h : k' ≠ k) :
    bmem (removeNat l k') k = bmem l k := by
  induction l with
  | nil => rfl
  | cons x xs ih =>
      by_cases hx : x = k'
      · simp [removeNat, hx, bmem, h]
      · simp [removeNat, hx, bmem, ih]

theorem bmem_false_of_forall_ne (l : List Nat) (k : Nat) (h : ∀ x ∈ l, x ≠ k) :
    bmem l k = false := by
  induction l with
  | nil => rfl
  | cons x xs ih =>
      have hx : x ≠ k := h x (by simp)
      simp [bmem, hx]
      exact ih (fun y hy => h y (by simp [hy]))

theorem mem_of_bmem (l : List Nat) (k : Nat) (h : bmem l k = true) : k ∈ l := by
  induction l with
  | nil => simp [bmem] at h
  | cons x xs ih =>
      by_cases hx : x = k
      · simp [hx]
      · simp [bmem, hx] at h
        simp [ih h]

theorem bmem_true_of_mem (l : List Nat) (k : Nat) (h : k ∈ l) : bmem l k = true := by
  induction l with
  | nil => simp at h
  | cons x xs ih =>
      by_cases hx : x = k
      · simp [bmem, hx]
      · simp [bmem, hx]
        simp at h
        rcases h with h | h
        · omega
        · exact ih h

theorem message_requestId (c : ClientCall) (id : Nat) :
    (ClientCall.message c id).requestId = id := by
  cases c <;> rfl

theorem subscribe_no_obs (s : ClientState) (id : Nat)
    (h : afind s.observables id = none) : subscribeObservable s id = s := by
  unfold subscribeObservable
  rw [h]

theorem subscribe_already_active (s : ClientState) (id : Nat) (m : ReqMessage)
    (hobs : afind s.observables id = some m)
    (hsub : bmem s.subscriptions id = true) : subscribeObservable s id = s := by
  unfold subscribeObservable
  rw [hobs, hsub]
  rfl

theorem clientInv_init : ClientInv initClient := by
  refine ⟨?_, ?_, ?_, ?_, ?_, ?_⟩ <;> intro p hp <;> simp [initClient] at hp

theorem settle_listeners (s : ClientState) (id : Nat) (o : Outcome) :
    (settle s id o).listeners = s.listeners := by
  unfold settle
  split <;> rfl

theorem settle_timers (s : ClientState) (id : Nat) (o : Outcome) :
    (settle s id o).timers = s.timers := by
  unfold settle
  split <;> rfl

theorem settle_subscriptions (s : ClientState) (id : Nat) (o : Outcome) :
    (settle s id o).subscriptions = s.subscriptions := by
  unfold settle
  split <;> rfl

theorem settle_sent (s : ClientState) (id : Nat) (o : Outcome) :
    (settle s id o).sent = s.sent := by
  unfold settle
  split <;> rfl

theorem settle_observables (s : ClientState) (id : Nat) (o : Outcome) :
    (settle s id o).observables = s.observables := by
  unfold settle
  split <;> rfl

theorem settle_mem (s : ClientState) (id : Nat) (o : Outcome) (p : Nat × Outcome)
    (h : p ∈ (settle s id o).settled) : p ∈ s.settled ∨ p = (id, o) := by
  unfold settle at h
  split at h
  · exact Or.inl h
  · simp at h
    rcases h with h | h
    · exact Or.inl h
    · exact Or.inr (by simp [h])

theorem clientInv_settle (s : ClientState) (id : Nat) (o : Outcome)
    (hid : id < s.rpcRequestId) (h : ClientInv s) : ClientInv (settle s id o) := by
  obtain ⟨h1, h2, h3, h4, h5, h6⟩ := h
  refine ⟨?_, ?_, ?_, ?_, ?_, ?_⟩
  · rw [settle_listeners, rpcRequestId_settle]
    exact h1
  · rw [settle_timers, rpcRequestId_settle]
    exact h2
  · intro p hp
    rw [rpcRequestId_settle]
    rcases settle_mem s id o p hp with h | h
    · exact h3 p h
    · rw [h]
      exact hid
  · rw [settle_subscriptions, rpcRequestId_settle]
    exact h4
  · rw [settle_observables, rpcRequestId_settle]
    exact h5
  · rw [settle_sent, rpcRequestId_settle]
    exact h6

theorem clientInv_dispose (s : ClientState) (id : Nat) (h : ClientInv s) :
    ClientInv (disposeSubscription s id) := by
  obtain ⟨h1, h2, h3, h4, h5, h6⟩ := h
  unfold disposeSubscription
  split
  · rename_i hb
    have hid : id < s.rpcRequestId := h4 id (mem_of_bmem _ _ hb)
    refine ⟨?_, h2, h3, ?_, h5, ?_⟩
    · intro p hp
      exact h1 p (mem_removeKey _ _ _ hp)
    · intro t ht
      exact h4 t (mem_removeNat _ _ _ ht)
    · intro m hm
      rcases List.mem_append.1 hm with h' | h'
      · exact h6 m h'
      · simp at h'
        rw [h']
        exact hid
  · exact ⟨h1, h2, h3, h4, h5, h6⟩

theorem clientInv_fireTimer (s : ClientState) (id : Nat) (h : ClientInv s) :
    ClientInv (fireTimer s id) := by
  obtain ⟨h1, h2, h3, h4, h5, h6⟩ := h
  unfold fireTimer
  split
  · rename_i hb
    have hid : id < s.rpcRequestId := h2 id (mem_of_bmem _ _ hb)
    refine clientInv_settle _ _ _ hid ⟨?_, ?_, h3, h4, h5, h6⟩
    · intro p hp
      exact h1 p (mem_removeKey _ _ _ hp)
    · intro t ht
      exact h2 t (mem_removeNat _ _ _ ht)
  · exact ⟨h1, h2, h3, h4, h5, h6⟩

theorem clientInv_applyCall (s : ClientState) (c : ClientCall) (h : ClientInv s) :
    ClientInv (applyCall s c) := by
  obtain ⟨h1, h2, h3, h4, h5, h6⟩ := h
  unfold applyCall
  cases c.returnType
  · refine ⟨fun p hp => Nat.lt_succ_of_lt (h1 p hp),
      fun t ht => Nat.lt_succ_of_lt (h2 t ht),
      fun p hp => Nat.lt_succ_of_lt (h3 p hp),
      fun t ht => Nat.lt_succ_of_lt (h4 t ht),
      fun p hp => ⟨Nat.lt_succ_of_lt (h5 p hp).1, (h5 p hp).2⟩, ?_⟩
    intro m hm
    rcases List.mem_append.1 hm with h' | h'
    · exact Nat.lt_succ_of_lt (h6 m h')
    · simp at h'
      rw [h', message_requestId]
      exact Nat.lt_succ_self _
  · refine ⟨?_, ?_, fun p hp => Nat.lt_succ_of_lt (h3 p hp),
      fun t ht => Nat.lt_succ_of_lt (h4 t ht),
      fun p hp => ⟨Nat.lt_succ_of_lt (h5 p hp).1, (h5 p hp).2⟩, ?_⟩
    · intro p hp
      rcases List.mem_append.1 hp with h' | h'
      · exact Nat.lt_succ_of_lt (h1 p h')
      · simp at h'
        rw [h']
        exact Nat.lt_succ_self _
    · intro t ht
      rcases List.mem_append.1 ht with h' | h'
      · exact Nat.lt_succ_of_lt (h2 t h')
      · simp at h'
        rw [h']
        exact Nat.lt_succ_self _
    · intro m hm
      rcases List.mem_append.1 hm with h' | h'
      · exact Nat.lt_succ_of_lt (h6 m h')
      · simp at h'
        rw [h', message_requestId]
        exact Nat.lt_succ_self _
  · refine ⟨fun p hp => Nat.lt_succ_of_lt (h1 p hp),
      fun t ht => Nat.lt_succ_of_lt (h2 t ht),
      fun p hp => Nat.lt_succ_of_lt (h3 p hp),
      fun t ht => Nat.lt_succ_of_lt (h4 t ht), ?_,
      fun m hm => Nat.lt_succ_of_lt (h6 m hm)⟩
    intro p hp
    rcases List.mem_append.1 hp with h' | h'
    · exact ⟨Nat.lt_succ_of_lt (h5 p h').1, (h5 p h').2⟩
    · simp at h'
      rw [h']
      exact ⟨Nat.lt_succ_self _, message_requestId c s.rpcRequestId⟩

theorem clientInv_subscribe (s : ClientState) (id : Nat) (h : ClientInv s) :
    ClientInv (subscribeObservable s id) := by
  obtain ⟨h1, h2, h3, h4, h5, h6⟩ := h
  cases hobs : afind s.observables id with
  | none =>
      rw [subscribe_no_obs _ _ hobs]
      exact ⟨h1, h2, h3, h4, h5, h6⟩
  | some m =>
      have hm := h5 _ (afind_mem _ _ _ hobs)
      cases hsub : bmem s.subscriptions id with
      | true =>
          rw [subscribe_already_active _ _ _ hobs hsub]
          exact ⟨h1, h2, h3, h4, h5, h6⟩
      | false =>
          rw [subscribe_active_eq _ _ _ hobs hsub]
          refine ⟨?_, h2, h3, ?_, h5, ?_⟩
          · intro p hp
            rcases List.mem_append.1 hp with h' | h'
            · exact h1 p h'
            · simp at h'
              rw [h']
              exact hm.1
          · intro t ht
            rcases List.mem_append.1 ht with h' | h'
            · exact h4 t h'
            · simp at h'
              rw [h']
              exact hm.1
          · intro q hq
            rcases List.mem_append.1 hq with h' | h'
            · exact h6 q h'
            · simp at h'
              rw [h', hm.2]
              exact hm.1

theorem clientInv_emit (s : ClientState) (id : Nat) (h : Bool)
    (e : EncodedError) (r : RespResult) (hinv : ClientInv s) :
    ClientInv (emitResponse s id h e r) := by
  obtain ⟨h1, h2, h3, h4, h5, h6⟩ := hinv
  cases hfind : afind s.listeners id with
  | none =>
      unfold emitResponse
      rw [hfind]
      exact ⟨h1, h2, h3, h4, h5, h6⟩
  | some mode =>
      have hid : id < s.rpcRequestId := h1 _ (afind_mem _ _ _ hfind)
      unfold emitResponse
      rw [hfind]
      cases mode with
      | once =>
          have hbase : ClientInv
              { s with listeners := removeKey s.listeners id } := by
            refine ⟨?_, h2, h3, h4, h5, h6⟩
            intro p hp
            exact h1 p (mem_removeKey _ _ _ hp)
          cases h
          · exact clientInv_settle _ _ _ hid hbase
          · exact clientInv_settle _ _ _ hid hbase
      | onEach =>
          cases h
          · cases r
            · exact ⟨h1, h2, h3, h4, h5, h6⟩
            · exact ⟨h1, h2, h3, h4, h5, h6⟩
            · exact clientInv_dispose _ _ ⟨h1, h2, h3, h4, h5, h6⟩
          · exact clientInv_dispose _ _ ⟨h1, h2, h3, h4, h5, h6⟩

theorem clientInv_step (s s' : ClientState) (e : ClientEvent)
    (hstep : clientStep s e = some s') (h : ClientInv s) : ClientInv s' := by
  cases e with
  | call c =>
      simp [clientStep] at hstep
      exact hstep ▸ clientInv_applyCall s c h
  | frame ch id hb err r =>
      simp only [clientStep] at hstep
      split at hstep
      · injection hstep with h2
        exact h2 ▸ clientInv_emit s id hb err r h
      · exact absurd hstep (by simp)
  | timerFire id =>
      simp [clientStep] at hstep
      exact hstep ▸ clientInv_fireTimer s id h
  | subscribe id =>
      simp [clientStep] at hstep
      exact hstep ▸ clientInv_subscribe s id h
  | unsubscribe id =>
      simp [clientStep] at hstep
      exact hstep ▸ clientInv_dispose s id h

theorem clientInv_run (evs : List ClientEvent) :
    ∀ s₀ s, ClientInv s₀ → clientRun s₀ evs = some s → ClientInv s := by
  induction evs with
  | nil =>
      intro s₀ s hinv hrun
      simp [clientRun] at hrun
      exact hrun ▸ hinv
  | cons e es ih =>
      intro s₀ s hinv hrun
      unfold clientRun at hrun
      cases hstep : clientStep s₀ e with
      | none => rw [hstep] at hrun; simp at hrun
      | some s₁ =>
          rw [hstep] at hrun
          exact ih s₁ s (clientInv_step s₀ s₁ e hstep hinv) hrun

theorem settle_settled_ne (s : ClientState) (id' : Nat) (o : Outcome) (id : Nat)
    (h : id' ≠ id) : afind (settle s id' o).settled id = afind s.settled id := by
  unfold settle
  split
  · rfl
  · exact afind_append_single_ne _ _ _ _ h

theorem settle_settled_some (s : ClientState) (id' : Nat) (o : Outcome) (id : Nat)
    (v : Outcome) (h : afind s.settled id = some v) :
    afind (settle s id' o).settled id = some v := by
  unfold settle
  split
  · exact h
  · exact afind_append_of_some _ _ _ _ h

theorem entryView_dispose_ne (s : ClientState) (id' id : Nat) (h : id' ≠ id) :
    entryView (disposeSubscription s id') id = entryView s id := by
  unfold disposeSubscription
  split
  · unfold entryView
    rw [afind_removeKey_ne _ _ _ h, bmem_removeNat_ne _ _ _ h]
  · rfl

theorem entryView_fireTimer_ne (s : ClientState) (id' id : Nat) (h : id' ≠ id) :
    entryView (fireTimer s id') id = entryView s id := by
  unfold fireTimer
  split
  · unfold entryView
    rw [settle_listeners, settle_timers, settle_subscriptions, settle_observables,
      settle_settled_ne _ _ _ _ h]
    rw [afind_removeKey_ne _ _ _ h, bmem_removeNat_ne _ _ _ h]
  · rfl

theorem subscribe_rpcRequestId (s : ClientState) (id : Nat) :
    (subscribeObservable s id).rpcRequestId = s.rpcRequestId := by
  cases hobs : afind s.observables id with
  | none => rw [subscribe_no_obs _ _ hobs]
  | some m =>
      cases hsub : bmem s.subscriptions id with
      | true => rw [subscribe_already_active _ _ _ hobs hsub]
      | false => rw [subscribe_active_eq _ _ _ hobs hsub]

theorem entryView_subscribe_ne (s : ClientState) (id' id : Nat) (h : id' ≠ id) :
    entryView (subscribeObservable s id') id = entryView s id := by
  cases hobs : afind s.observables id' with
  | none => rw [subscribe_no_obs _ _ hobs]
  | some m =>
      cases hsub : bmem s.subscriptions id' with
      | true => rw [subscribe_already_active _ _ _ hobs hsub]
      | false =>
          rw [subscribe_active_eq _ _ _ hobs hsub]
          unfold entryView
          rw [afind_append_single_ne _ _ _ _ h, bmem_append_single_ne _ _ _ h]

theorem emitResponse_no_listener (s : ClientState) (id : Nat) (h : Bool)
    (e : EncodedError) (r : RespResult) (hfind : afind s.listeners id = none) :
    emitResponse s id h e r = s := by
  unfold emitResponse
  rw [hfind]

theorem emitResponse_once_eq (s : ClientState) (id : Nat) (h : Bool)
    (e : EncodedError) (r : RespResult)
    (hfind : afind s.listeners id = some .once) :
    emitResponse s id h e r = emitOnce s id h e r := by
  unfold emitResponse
  rw [hfind]

theorem emitResponse_onEach_eq (s : ClientState) (id : Nat) (h : Bool)
    (e : EncodedError) (r : RespResult)
    (hfind : afind s.listeners id = some .onEach) :
    emitResponse s id h e r = emitOnEach s id h e r := by
  unfold emitResponse
  rw [hfind]

theorem emitOnce_listeners (s : ClientState) (id : Nat) (h : Bool)
    (e : EncodedError) (r : RespResult) :
    (emitOnce s id h e r).listeners = removeKey s.listeners id := by
  unfold emitOnce
  rw [settle_listeners]

theorem emitOnce_timers (s : ClientState) (id : Nat) (h : Bool)
    (e : EncodedError) (r : RespResult) :
    (emitOnce s id h e r).timers = s.timers := by
  unfold emitOnce
  rw [settle_timers]

theorem emitOnce_subscriptions (s : ClientState) (id : Nat) (h : Bool)
    (e : EncodedError) (r : RespResult) :
    (emitOnce s id h e r).subscriptions = s.subscriptions := by
  unfold emitOnce
  rw [settle_subscriptions]

theorem emitOnce_observables (s : ClientState) (id : Nat) (h : Bool)
    (e : EncodedError) (r : RespResult) :
    (emitOnce s id h e r).observables = s.observables := by
  unfold emitOnce
  rw [settle_observables]

theorem emitOnce_settled_ne (s : ClientState) (id : Nat) (h : Bool)
    (e : EncodedError) (r : RespResult) (id' : Nat) (hne : id ≠ id') :
    afind (emitOnce s id h e r).settled id' = afind s.settled id' := by
  unfold emitOnce
  rw [settle_settled_ne _ _ _ _ hne]

theorem emitOnce_settled_self (s : ClientState) (id : Nat) (h : Bool)
    (e : EncodedError) (r : RespResult) (hnone : afind s.settled id = none) :
    afind (emitOnce s id h e r).settled id =
      some (if h then .rejected (decodeError e) else .resolved r) := by
  unfold emitOnce settle
  split
  · rename_i hs
    rw [show ({ s with listeners := removeKey s.listeners id } : ClientState).settled
        = s.settled from rfl, hnone] at hs
    simp at hs
  · exact afind_append_self_of_none _ _ _ hnone

theorem emitOnEach_eta (s : ClientState) (id : Nat) (h : Bool)
    (e : EncodedError) (r : RespResult) :
    emitOnEach s id h e r = s ∨
      (∃ d, emitOnEach s id h e r = { s with delivered := s.delivered ++ [(id, d)] }) ∨
      (∃ d, emitOnEach s id h e r =
        disposeSubscription { s with delivered := s.delivered ++ [(id, d)] } id) := by
  cases h with
  | true =>
      exact Or.inr (Or.inr ⟨.error (decodeError e), rfl⟩)
  | false =>
      cases r with
      | value v => exact Or.inl rfl
      | next d => exact Or.inr (Or.inl ⟨.next d, rfl⟩)
      | completed => exact Or.inr (Or.inr ⟨.completed, rfl⟩)

theorem entryView_delivered (s : ClientState) (id' : Nat) (d : ObsEvent) (id : Nat) :
    entryView { s with delivered := s.delivered ++ [(id', d)] } id = entryView s id := rfl

theorem entryView_emit_ne (s : ClientState) (id' : Nat) (h : Bool)
    (e : EncodedError) (r : RespResult) (id : Nat) (hne : id' ≠ id) :
    entryView (emitResponse s id' h e r) id = entryView s id := by
  cases hfind : afind s.listeners id' with
  | none => rw [emitResponse_no_listener _ _ _ _ _ hfind]
  | some mode =>
      cases mode with
      | once =>
          rw [emitResponse_once_eq _ _ _ _ _ hfind]
          unfold entryView
          rw [emitOnce_listeners, emitOnce_timers, emitOnce_subscriptions,
            emitOnce_observables, emitOnce_settled_ne _ _ _ _ _ _ hne,
            afind_removeKey_ne _ _ _ hne]
      | onEach =>
          rw [emitResponse_onEach_eq _ _ _ _ _ hfind]
          rcases emitOnEach_eta s id' h e r with heq | ⟨d, heq⟩ | ⟨d, heq⟩
          · rw [heq]
          · rw [heq, entryView_delivered]
          · rw [heq, entryView_dispose_ne _ _ _ hne, entryView_delivered]

theorem entryView_applyCall_ne (s : ClientState) (c : ClientCall) (id : Nat)
    (hid : id < s.rpcRequestId) :
    entryView (applyCall s c) id = entryView s id := by
  have hne : s.rpcRequestId ≠ id := by omega
  unfold applyCall
  cases c.returnType
  · rfl
  · unfold entryView
    rw [afind_append_single_ne _ _ _ _ hne, bmem_append_single_ne _ _ _ hne]
  · unfold entryView
    rw [afind_append_single_ne _ _ _ _ hne]

theorem clientStep_rpcRequestId (s s' : ClientState) (e : ClientEvent)
    (hstep : clientStep s e = some s') : s.rpcRequestId ≤ s'.rpcRequestId := by
  cases e with
  | call c =>
      simp [clientStep] at hstep
      rw [← hstep, applyCall_rpcRequestId]
      omega
  | frame ch id h e r =>
      simp only [clientStep] at hstep
      split at hstep
      · injection hstep with h2
        rw [← h2, (requestFrames_emit s id h e r).2]
      · exact absurd hstep (by simp)
  | timerFire id =>
      simp [clientStep] at hstep
      rw [← hstep, (requestFrames_fireTimer s id).2]
  | subscribe id =>
      simp [clientStep] at hstep
      rw [← hstep, subscribe_rpcRequestId]
  | unsubscribe id =>
      simp [clientStep] at hstep
      rw [← hstep, rpcRequestId_dispose]

theorem entryView_step (s s' : ClientState) (e : ClientEvent) (id : Nat)
    (hstep : clientStep s e = some s') (hid : id < s.rpcRequestId)
    (hts : targets id e = false) :
    entryView s' id = entryView s id ∧ id < s'.rpcRequestId := by
  have hctr : id < s'.rpcRequestId :=
    Nat.lt_of_lt_of_le hid (clientStep_rpcRequestId s s' e hstep)
  cases e with
  | call c =>
      simp [clientStep] at hstep
      exact ⟨hstep ▸ entryView_applyCall_ne s c id hid, hctr⟩
  | frame ch rid h e r =>
      have hne : rid ≠ id := by
        simp [targets] at hts
        exact hts
      simp only [clientStep] at hstep
      split at hstep
      · injection hstep with h2
        exact ⟨h2 ▸ entryView_emit_ne s rid h e r id hne, hctr⟩
      · exact absurd hstep (by simp)
  | timerFire rid =>
      have hne : rid ≠ id := by
        simp [targets] at hts
        exact hts
      simp [clientStep] at hstep
      exact ⟨hstep ▸ entryView_fireTimer_ne s rid id hne, hctr⟩
  | subscribe rid =>
      have hne : rid ≠ id := by
        simp [targets] at hts
        exact hts
      simp [clientStep] at hstep
      exact ⟨hstep ▸ entryView_subscribe_ne s rid id hne, hctr⟩
  | unsubscribe rid =>
      have hne : rid ≠ id := by
        simp [targets] at hts
        exact hts
      simp [clientStep] at hstep
      exact ⟨hstep ▸ entryView_dispose_ne s rid id hne, hctr⟩

theorem entryView_run (id : Nat) (evs : List ClientEvent) :
    ∀ s s', (∀ e ∈ evs, targets id e = false) → clientRun s evs = some s' →
      id < s.rpcRequestId →
      entryView s' id = entryView s id ∧ id < s'.rpcRequestId := by
  induction evs with
  | nil =>
      intro s s' _ hrun hid
      simp [clientRun] at hrun
      exact ⟨by rw [hrun], hrun ▸ hid⟩
  | cons e es ih =>
      intro s s' hts hrun hid
      unfold clientRun at hrun
      cases hstep : clientStep s e with
      | none => rw [hstep] at hrun; simp at hrun
      | some s₁ =>
          rw [hstep] at hrun
          simp only [Option.some_bind] at hrun
          have h1 := entryView_step s s₁ e id hstep hid (hts e (by simp))
          have h2 := ih s₁ s' (fun ev hev => hts ev (by simp [hev])) hrun h1.2
          exact ⟨h2.1.trans h1.1, h2.2⟩

theorem clientRun_append (l₁ l₂ : List ClientEvent) :
    ∀ s, clientRun s (l₁ ++ l₂) = (clientRun s l₁).bind (fun s' => clientRun s' l₂) := by
  induction l₁ with
  | nil => intro s; rfl
  | cons e es ih =>
      intro s
      cases hstep : clientStep s e with
      | none => simp [clientRun, hstep]
      | some s₁ => simp [clientRun, hstep, ih s₁]

theorem applyCall_settled (s : ClientState) (c : ClientCall) :
    (applyCall s c).settled = s.settled := by
  unfold applyCall
  cases c.returnType <;> rfl

theorem dispose_settled (s : ClientState) (id : Nat) :
    (disposeSubscription s id).settled = s.settled := by
  unfold disposeSubscription
  split <;> rfl

theorem dispose_observables (s : ClientState) (id : Nat) :
    (disposeSubscription s id).observables = s.observables := by
  unfold disposeSubscription
  split <;> rfl

theorem subscribe_settled (s : ClientState) (id : Nat) :
    (subscribeObservable s id).settled = s.settled := by
  cases hobs : afind s.observables id with
  | none => rw [subscribe_no_obs _ _ hobs]
  | some m =>
      cases hsub : bmem s.subscriptions id with
      | true => rw [subscribe_already_active _ _ _ hobs hsub]
      | false => rw [subscribe_active_eq _ _ _ hobs hsub]

theorem subscribe_observables (s : ClientState) (id : Nat) :
    (subscribeObservable s id).observables = s.observables := by
  cases hobs : afind s.observables id with
  | none => rw [subscribe_no_obs _ _ hobs]
  | some m =>
      cases hsub : bmem s.subscriptions id with
      | true => rw [subscribe_already_active _ _ _ hobs hsub]
      | false => rw [subscribe_active_eq _ _ _ hobs hsub]

theorem settled_persists_step (s s' : ClientState) (e : ClientEvent) (id : Nat)
    (v : Outcome) (hstep : clientStep s e = some s')
    (h : afind s.settled id = some v) : afind s'.settled id = some v := by
  cases e with
  | call c =>
      simp [clientStep] at hstep
      rw [← hstep, applyCall_settled]
      exact h
  | frame ch rid hb err r =>
      simp only [clientStep] at hstep
      split at hstep
      · injection hstep with h2
        rw [← h2]
        cases hfind : afind s.listeners rid with
        | none =>
            rw [emitResponse_no_listener _ _ _ _ _ hfind]
            exact h
        | some mode =>
            cases mode with
            | once =>
                rw [emitResponse_once_eq _ _ _ _ _ hfind]
                unfold emitOnce
                exact settle_settled_some _ _ _ _ _ h
            | onEach =>
                rw [emitResponse_onEach_eq _ _ _ _ _ hfind]
                rcases emitOnEach_eta s rid hb err r with heq | ⟨d, heq⟩ | ⟨d, heq⟩
                · rw [heq]
                  exact h
                · rw [heq]
                  exact h
                · rw [heq, dispose_settled]
                  exact h
      · exact absurd hstep (by simp)
  | timerFire rid =>
      simp [clientStep] at hstep
      rw [← hstep]
      unfold fireTimer
      split
      · exact settle_settled_some _ _ _ _ _ h
      · exact h
  | subscribe rid =>
      simp [clientStep] at hstep
      rw [← hstep, subscribe_settled]
      exact h
  | unsubscribe rid =>
      simp [clientStep] at hstep
      rw [← hstep, dispose_settled]
      exact h

theorem settled_persists_run (id : Nat) (v : Outcome) (evs : List ClientEvent) :
    ∀ s s', afind s.settled id = some v → clientRun s evs = some s' →
      afind s'.settled id = some v := by
  induction evs with
  | nil =>
      intro s s' h hrun
      simp [clientRun] at hrun
      exact hrun ▸ h
  | cons e es ih =>
      intro s s' h hrun
      unfold clientRun at hrun
      cases hstep : clientStep s e with
      | none => rw [hstep] at hrun; simp at hrun
      | some s₁ =>
          rw [hstep] at hrun
          simp only [Option.some_bind] at hrun
          exact ih s₁ s' (settled_persists_step s s₁ e id v hstep h) hrun

theorem listenerGone_step (s s' : ClientState) (e : ClientEvent) (id : Nat)
    (hstep : clientStep s e = some s') (h : afind s.listeners id = none)
    (hobs : afind s.observables id = none) (hid : id < s.rpcRequestId) :
    afind s'.listeners id = none ∧ afind s'.observables id = none := by
  cases e with
  | call c =>
      simp [clientStep] at hstep
      rw [← hstep]
      unfold applyCall
      have hne : s.rpcRequestId ≠ id := by omega
      cases c.returnType
      · exact ⟨h, hobs⟩
      · exact ⟨(afind_append_single_ne _ _ _ _ hne).trans h, hobs⟩
      · exact ⟨h, (afind_append_single_ne _ _ _ _ hne).trans hobs⟩
  | frame ch rid hb err r =>
      simp only [clientStep] at hstep
      split at hstep
      · injection hstep with h2
        rw [← h2]
        by_cases hrid : rid = id
        · subst hrid
          rw [emitResponse_no_listener _ _ _ _ _ h]
          exact ⟨h, hobs⟩
        · cases hfind : afind s.listeners rid with
          | none =>
              rw [emitResponse_no_listener _ _ _ _ _ hfind]
              exact ⟨h, hobs⟩
          | some mode =>
              cases mode with
              | once =>
                  rw [emitResponse_once_eq _ _ _ _ _ hfind, emitOnce_listeners,
                    emitOnce_observables]
                  exact ⟨afind_removeKey_none _ _ _ h, hobs⟩
              | onEach =>
                  rw [emitResponse_onEach_eq _ _ _ _ _ hfind]
                  rcases emitOnEach_eta s rid hb err r with heq | ⟨d, heq⟩ | ⟨d, heq⟩
                  · rw [heq]
                    exact ⟨h, hobs⟩
                  · rw [heq]
                    exact ⟨h, hobs⟩
                  · rw [heq, dispose_observables]
                    refine ⟨?_, hobs⟩
                    unfold disposeSubscription
                    split
                    · exact afind_removeKey_none _ _ _ h
                    · exact h
      · exact absurd hstep (by simp)
  | timerFire rid =>
      simp [clientStep] at hstep
      rw [← hstep]
      unfold fireTimer
      split
      · rw [settle_listeners, settle_observables]
        exact ⟨afind_removeKey_none _ _ _ h, hobs⟩
      · exact ⟨h, hobs⟩
  | subscribe rid =>
      simp [clientStep] at hstep
      rw [← hstep]
      by_cases hrid : rid = id
      · subst hrid
        rw [subscribe_no_obs _ _ hobs]
        exact ⟨h, hobs⟩
      · have hne : rid ≠ id := hrid
        cases ho : afind s.observables rid with
        | none =>
            rw [subscribe_no_obs _ _ ho]
            exact ⟨h, hobs⟩
        | some m =>
            cases hsub : bmem s.subscriptions rid with
            | true =>
                rw [subscribe_already_active _ _ _ ho hsub]
                exact ⟨h, hobs⟩
            | false =>
                rw [subscribe_active_eq _ _ _ ho hsub]
                exact ⟨(afind_append_single_ne _ _ _ _ hne).trans h, hobs⟩
  | unsubscribe rid =>
      simp [clientStep] at hstep
      rw [← hstep, dispose_observables]
      refine ⟨?_, hobs⟩
      unfold disposeSubscription
      split
      · exact afind_removeKey_none _ _ _ h
      · exact h

theorem listenerGone_run (id : Nat) (evs : List ClientEvent) :
    ∀ s s', afind s.listeners id = none → afind s.observables id = none →
      id < s.rpcRequestId → clientRun s evs = some s' →
      afind s'.listeners id = none := by
  induction evs with
  | nil =>
      intro s s' h _ _ hrun
      simp [clientRun] at hrun
      exact hrun ▸ h
  | cons e es ih =>
      intro s s' h hobs hid hrun
      unfold clientRun at hrun
      cases hstep : clientStep s e with
      | none => rw [hstep] at hrun; simp at hrun
      | some s₁ =>
          rw [hstep] at hrun
          simp only [Option.some_bind] at hrun
          obtain ⟨h1, h2⟩ := listenerGone_step s s₁ e id hstep h hobs hid
          exact ih s₁ s' h1 h2
            (Nat.lt_of_lt_of_le hid (clientStep_rpcRequestId s s₁ e hstep)) hrun

theorem promiseEntry_applyCall (s : ClientState) (c : ClientCall)
    (hc : c.returnType = .promise) (hinv : ClientInv s) :
    entryView (applyCall s c) s.rpcRequestId =
      (some .once, true, none, false, none) := by
  obtain ⟨h1, h2, h3, h4, h5, h6⟩ := hinv
  unfold applyCall
  rw [hc]
  unfold entryView
  simp only
  rw [afind_append_self_of_none _ _ _
      (afind_none_of_forall_ne _ _ (fun p hp => Nat.ne_of_lt (h1 p hp))),
    bmem_append_self,
    afind_none_of_forall_ne s.settled _ (fun p hp => Nat.ne_of_lt (h3 p hp)),
    bmem_false_of_forall_ne s.subscriptions _ (fun t ht => Nat.ne_of_lt (h4 t ht)),
    afind_none_of_forall_ne s.observables _
      (fun p hp => Nat.ne_of_lt (h5 p hp).1)]

/-- After a promise-shaped call and any sequence of events not concerning its
request id, the entry is still pending: `once` listener registered, timer
armed, promise unsettled, no subscription. -/
theorem promise_pending_after (pre : List ClientEvent) (c : ClientCall)
    (post₁ : List ClientEvent) (s₀ s₂ : ClientState)
    (hpre : clientRun initClient pre = some s₀)
    (hc : c.returnType = .promise)
    (hpost : ∀ ev ∈ post₁, targets s₀.rpcRequestId ev = false)
    (hrun : clientRun initClient (pre ++ .call c :: post₁) = some s₂) :
    entryView s₂ s₀.rpcRequestId = (some .once, true, none, false, none) ∧
      s₀.rpcRequestId < s₂.rpcRequestId := by
  have hinv₀ := clientInv_run pre initClient s₀ clientInv_init hpre
  rw [clientRun_append, hpre] at hrun
  simp only [Option.some_bind] at hrun
  have hrun' : clientRun (applyCall s₀ c) post₁ = some s₂ := hrun
  have hentry := promiseEntry_applyCall s₀ c hc hinv₀
  have hctr : s₀.rpcRequestId < (applyCall s₀ c).rpcRequestId := by
    rw [applyCall_rpcRequestId]
    omega
  have hpres := entryView_run s₀.rpcRequestId post₁ (applyCall s₀ c) s₂ hpost hrun' hctr
  exact ⟨hpres.1.trans hentry, hpres.2⟩

/-- The first frame for a pending promise id settles the promise with the
frame's outcome and removes the table entry; the settled value then survives
every later event. -/
theorem promise_first_frame (pre : List ClientEvent) (c : ClientCall)
    (post₁ : List ClientEvent) (h : Bool) (e : EncodedError) (r : RespResult)
    (post₂ : List ClientEvent) (s₀ s : ClientState)
    (hpre : clientRun initClient pre = some s₀)
    (hc : c.returnType = .promise)
    (hpost : ∀ ev ∈ post₁, targets s₀.rpcRequestId ev = false)
    (hrun : clientRun initClient
        (pre ++ .call c :: (post₁ ++
          .frame SERVICE_FRAMEWORK3_CHANNEL s₀.rpcRequestId h e r :: post₂)) = some s) :
    afind s.settled s₀.rpcRequestId =
        some (if h then .rejected (decodeError e) else .resolved r) ∧
      afind s.listeners s₀.rpcRequestId = none := by
  have hassoc : pre ++ .call c :: (post₁ ++
      .frame SERVICE_FRAMEWORK3_CHANNEL s₀.rpcRequestId h e r :: post₂) =
      (pre ++ .call c :: post₁) ++
        (.frame SERVICE_FRAMEWORK3_CHANNEL s₀.rpcRequestId h e r :: post₂) := by
    simp
  rw [hassoc, clientRun_append] at hrun
  cases hmid : clientRun initClient (pre ++ .call c :: post₁) with
  | none => rw [hmid] at hrun; simp at hrun
  | some s₂ =>
      rw [hmid] at hrun
      simp only [Option.some_bind] at hrun
      obtain ⟨hview, hctr⟩ := promise_pending_after pre c post₁ s₀ s₂ hpre hc hpost hmid
      have hfind : afind s₂.listeners s₀.rpcRequestId = some .once :=
        congrArg Prod.fst hview
      have hnone : afind s₂.settled s₀.rpcRequestId = none :=
        congrArg (fun t => t.2.2.1) hview
      have hnobs : afind s₂.observables s₀.rpcRequestId = none :=
        congrArg (fun t => t.2.2.2.2) hview
      unfold clientRun at hrun
      have hstep : clientStep s₂
          (.frame SERVICE_FRAMEWORK3_CHANNEL s₀.rpcRequestId h e r) =
          some (emitResponse s₂ s₀.rpcRequestId h e r) := by
        simp [clientStep]
      rw [hstep] at hrun
      simp only [Option.some_bind] at hrun
      set s₃ := emitResponse s₂ s₀.rpcRequestId h e r with hs₃
      have hsettled₃ : afind s₃.settled s₀.rpcRequestId =
          some (if h then .rejected (decodeError e) else .resolved r) := by
        rw [hs₃, emitResponse_once_eq _ _ _ _ _ hfind]
        exact emitOnce_settled_self _ _ _ _ _ hnone
      have hgone₃ : afind s₃.listeners s₀.rpcRequestId = none := by
        rw [hs₃, emitResponse_once_eq _ _ _ _ _ hfind, emitOnce_listeners]
        exact afind_removeKey_self _ _
      have hnobs₃ : afind s₃.observables s₀.rpcRequestId = none := by
        rw [hs₃, emitResponse_once_eq _ _ _ _ _ hfind, emitOnce_observables]
        exact hnobs
      have hctr₃ : s₀.rpcRequestId < s₃.rpcRequestId := by
        rw [hs₃, (requestFrames_emit s₂ s₀.rpcRequestId h e r).2]
        exact hctr
      exact ⟨settled_persists_run _ _ post₂ s₃ s hsettled₃ hrun,
        listenerGone_run _ post₂ s₃ s hgone₃ hnobs₃ hctr₃ hrun⟩

/-- If the timeout timer fires on a pending promise id before any frame for
it arrives, the promise is rejected with the timeout message and the entry
is removed; this too survives every later event. -/
theorem promise_timeout (pre : List ClientEvent) (c : ClientCall)
    (post₁ : List ClientEvent) (post₂ : List ClientEvent) (s₀ s : ClientState)
    (hpre : clientRun initClient pre = some s₀)
    (hc : c.returnType = .promise)
    (hpost : ∀ ev ∈ post₁, targets s₀.rpcRequestId ev = false)
    (hrun : clientRun initClient
        (pre ++ .call c :: (post₁ ++ .timerFire s₀.rpcRequestId :: post₂)) = some s) :
    afind s.settled s₀.rpcRequestId = some (.timedOut s₀.rpcRequestId) ∧
      afind s.listeners s₀.rpcRequestId = none := by
  have hassoc : pre ++ .call c :: (post₁ ++ .timerFire s₀.rpcRequestId :: post₂) =
      (pre ++ .call c :: post₁) ++ (.timerFire s₀.rpcRequestId :: post₂) := by
    simp
  rw [hassoc, clientRun_append] at hrun
  cases hmid : clientRun initClient (pre ++ .call c :: post₁) with
  | none => rw [hmid] at hrun; simp at hrun
  | some s₂ =>
      rw [hmid] at hrun
      simp only [Option.some_bind] at hrun
      obtain ⟨hview, hctr⟩ := promise_pending_after pre c post₁ s₀ s₂ hpre hc hpost hmid
      have htimer : bmem s₂.timers s₀.rpcRequestId = true :=
        congrArg (fun t => t.2.1) hview
      have hnone : afind s₂.settled s₀.rpcRequestId = none :=
        congrArg (fun t => t.2.2.1) hview
      have hnobs : afind s₂.observables s₀.rpcRequestId = none :=
        congrArg (fun t => t.2.2.2.2) hview
      unfold clientRun at hrun
      have hstep : clientStep s₂ (.timerFire s₀.rpcRequestId) =
          some (fireTimer s₂ s₀.rpcRequestId) := by
        simp [clientStep]
      rw [hstep] at hrun
      simp only [Option.some_bind] at hrun
      set s₃ := fireTimer s₂ s₀.rpcRequestId with hs₃
      have hfire : s₃ = settle
          { s₂ with
              timers := removeNat s₂.timers s₀.rpcRequestId,
              listeners := removeKey s₂.listeners s₀.rpcRequestId }
          s₀.rpcRequestId (.timedOut s₀.rpcRequestId) := by
        rw [hs₃]
        unfold fireTimer
        rw [htimer]
        simp
      have hsettled₃ : afind s₃.settled s₀.rpcRequestId =
          some (.timedOut s₀.rpcRequestId) := by
        rw [hfire]
        unfold settle
        split
        · rename_i hs
          rw [show ({ s₂ with
              timers := removeNat s₂.timers s₀.rpcRequestId,
              listeners := removeKey s₂.listeners s₀.rpcRequestId } : ClientState).settled
              = s₂.settled from rfl, hnone] at hs
          simp at hs
        · exact afind_append_self_of_none _ _ _ hnone
      have hgone₃ : afind s₃.listeners s₀.rpcRequestId = none := by
        rw [hfire, settle_listeners]
        exact afind_removeKey_self _ _
      have hnobs₃ : afind s₃.observables s₀.rpcRequestId = none := by
        rw [hfire, settle_observables]
        exact hnobs
      have hctr₃ : s₀.rpcRequestId < s₃.rpcRequestId := by
        rw [hs₃, (requestFrames_fireTimer s₂ s₀.rpcRequestId).2]
        exact hctr
      exact ⟨settled_persists_run _ _ post₂ s₃ s hsettled₃ hrun,
        listenerGone_run _ post₂ s₃ s hgone₃ hnobs₃ hctr₃ hrun⟩

/-- Dropping a frame whose id has no listener changes nothing at all. -/
theorem late_frame_noop (s : ClientState) (id : Nat) (h : Bool)
    (e : EncodedError) (r : RespResult) (hfind : afind s.listeners id = none) :
    clientStep s (.frame SERVICE_FRAMEWORK3_CHANNEL id h e r) = some s := by
  simp [clientStep, emitResponse_no_listener _ _ _ _ _ hfind]

/-- Counterexample to C1 as frozen.  The observable branch of
`_sendMessageAndListenForResult` (part_003 lines 224-258) defers
`this._socket.send(message)` into the `Observable.create` factory, which
runs at each subscription, not at call time.  Two refutations: (i) an
observable call (id 1) followed by a promise call (id 2) and then the
deferred subscription emits the frames in order `[2, 1]` — the later frame
bears a *smaller* requestId; (ii) subscribing, unsubscribing and
re-subscribing the same observable emits the id-1 request frame twice, so
an emitted requestId is reused. -/
theorem C1_deferred_emission_counterexample :
    ((clientRun initClient
        [.call (.callRemoteFunction "tail" .observable []),
         .call (.createRemoteObject "Session" []),
         .subscribe 1]).map (fun s => s.sent.map (fun m => m.requestId)) =
      some [2, 1]) ∧
    ((clientRun initClient
        [.call (.callRemoteFunction "tail" .observable []),
         .subscribe 1, .unsubscribe 1, .subscribe 1]).map
        (fun s => (requestFrames s).map (fun m => m.requestId)) =
      some [1, 1]) := by
  exact ⟨by decide, by decide⟩

/-- C1 (amended).  Request-id allocation, as the code implements it: the
per-instance counter starts at 1; every built frame bears exactly the id
handed out for it; each of the four public calls advances the counter by
one, so allocated ids are strictly increasing and never reallocated; in
every reachable state each emitted frame and each stored cold observable
bears an already-allocated id; a void- or promise-shaped call emits its
frame at call time, appending it after all previously emitted frames; an
observable-shaped call emits nothing — it stores the frame cold under its
id — and each first subscription of a cold observable is what appends its
stored frame to the emission sequence (hence possibly after frames with
larger ids, and again after an unsubscribe). -/
theorem C1_counter_monotonic_allocation :
    initClient.rpcRequestId = 1 ∧
    (∀ c id, (ClientCall.message c id).requestId = id) ∧
    (∀ s c, (applyCall s c).rpcRequestId = s.rpcRequestId + 1) ∧
    (∀ evs s, clientRun initClient evs = some s →
      (∀ m ∈ s.sent, m.requestId < s.rpcRequestId) ∧
      (∀ p ∈ s.observables, p.1 < s.rpcRequestId ∧ p.2.requestId = p.1)) ∧
    (∀ s c, ClientCall.returnType c ≠ .observable →
      (applyCall s c).sent = s.sent ++ [ClientCall.message c s.rpcRequestId]) ∧
    (∀ s c, ClientCall.returnType c = .observable →
      (applyCall s c).sent = s.sent ∧
      (applyCall s c).observables =
        s.observables ++ [(s.rpcRequestId, ClientCall.message c s.rpcRequestId)]) ∧
    (∀ s id m, afind s.observables id = some m → bmem s.subscriptions id = false →
      (subscribeObservable s id).sent = s.sent ++ [m]) := by
  refine ⟨rfl, message_requestId, applyCall_rpcRequestId, ?_, applyCall_sync_sent,
    applyCall_observable_effects, ?_⟩
  · intro evs s hrun
    have h := clientInv_run evs initClient s clientInv_init hrun
    exact ⟨h.2.2.2.2.2, h.2.2.2.2.1⟩
  · intro s id m hobs hsub
    rw [subscribe_active_eq s id m hobs hsub]

/-- Witness for C1: the two-promise-call run reaches `csTwoCalls`, where
every emitted frame's id is below the counter; and subscribing the cold
observable of `csColdObs` appends its stored frame to the emissions. -/
theorem C1_counter_monotonic_allocation_witness :
    ((∀ m ∈ csTwoCalls.sent, m.requestId < csTwoCalls.rpcRequestId) ∧
      (∀ p ∈ csTwoCalls.observables,
        p.1 < csTwoCalls.rpcRequestId ∧ p.2.requestId = p.1)) ∧
    (subscribeObservable csColdObs 1).sent =
      csColdObs.sent ++ [⟨"service_framework3_rpc", 1, .functionCall "tail" []⟩] :=
  ⟨C1_counter_monotonic_allocation.2.2.2.1
      [.call (.createRemoteObject "Session" []), .call (.disposeRemoteObject 7)]
      csTwoCalls (by decide),
    C1_counter_monotonic_allocation.2.2.2.2.2.2 csColdObs 1
      ⟨"service_framework3_rpc", 1, .functionCall "tail" []⟩ (by decide) (by decide)⟩

/-- C2.  Promise lifecycle, as the code implements it: (i) the first response
frame for a promise-shaped call settles its future — resolving it when
`hadError` is false and rejecting it with the decoded error when true — and
removes the table entry, and the settled value is never changed by any later
event; (ii) if the timeout timer fires before any frame for the id arrives,
the future is rejected with the timeout message and the entry is removed;
(iii) an inbound frame whose id has no table entry leaves the state
completely unchanged — it is dropped silently, with no warning logged (the
modelled handler contains no logger call); (iv) a settled outcome persists
unchanged through any further events. -/
theorem C2_promise_settled_once :
    (∀ pre c post₁ h e r post₂ s₀ s,
      clientRun initClient pre = some s₀ →
      ClientCall.returnType c = .promise →
      (∀ ev ∈ post₁, targets s₀.rpcRequestId ev = false) →
      clientRun initClient
          (pre ++ .call c :: (post₁ ++
            .frame SERVICE_FRAMEWORK3_CHANNEL s₀.rpcRequestId h e r :: post₂)) = some s →
      afind s.settled s₀.rpcRequestId =
          some (if h then .rejected (decodeError e) else .resolved r) ∧
        afind s.listeners s₀.rpcRequestId = none) ∧
    (∀ pre c post₁ post₂ s₀ s,
      clientRun initClient pre = some s₀ →
      ClientCall.returnType c = .promise →
      (∀ ev ∈ post₁, targets s₀.rpcRequestId ev = false) →
      clientRun initClient
          (pre ++ .call c :: (post₁ ++ .timerFire s₀.rpcRequestId :: post₂)) = some s →
      afind s.settled s₀.rpcRequestId = some (.timedOut s₀.rpcRequestId) ∧
        afind s.listeners s₀.rpcRequestId = none) ∧
    (∀ s id h e r, afind s.listeners id = none →
      clientStep s (.frame SERVICE_FRAMEWORK3_CHANNEL id h e r) = some s) ∧
    (∀ id v evs s s', afind s.settled id = some v → clientRun s evs = some s' →
      afind s'.settled id = some v) :=
  ⟨fun pre c post₁ h e r post₂ s₀ s hpre hc hpost hrun =>
      promise_first_frame pre c post₁ h e r post₂ s₀ s hpre hc hpost hrun,
    fun pre c post₁ post₂ s₀ s hpre hc hpost hrun =>
      promise_timeout pre c post₁ post₂ s₀ s hpre hc hpost hrun,
    fun s id h e r hfind => late_frame_noop s id h e r hfind,
    fun id v evs s s' h hrun => settled_persists_run id v evs s s' h hrun⟩

/-- Witness for C2: concrete two-frame run — the first frame resolves the
promise with value 5 and removes the listener. -/
theorem C2_promise_settled_once_witness :
    afind csSettled.settled 1 =
        some (if false then .rejected (decodeError .null) else .resolved (.value 5)) ∧
      afind csSettled.listeners 1 = none :=
  C2_promise_settled_once.1 [] (.createRemoteObject "Session" []) [] false .null
    (.value 5) [.frame SERVICE_FRAMEWORK3_CHANNEL 1 false .null (.value 6)]
    initClient csSettled (by decide) (by decide) (by simp) (by decide)

/-- Counterexample for C2 as stated: the claim says a subsequent frame
bearing the same request id is dropped "with a warning", but the code's
dispatch has no logging — the late frame leaves the state (including the
warn log, which stays empty) exactly as it was. -/
theorem C2_no_warning_counterexample :
    clientRun initClient
        [.call (.createRemoteObject "Session" []),
         .frame SERVICE_FRAMEWORK3_CHANNEL 1 false .null (.value 5),
         .frame SERVICE_FRAMEWORK3_CHANNEL 1 false .null (.value 6)] =
      some csSettled ∧
    csSettled.warnLog = [] := by
  constructor
  · decide
  · rfl

/-! ## Observable dispose (C6), timers (C7), error decoding (C8) -/

theorem dispose_active_eq (s : ClientState) (id : Nat)
    (hsub : bmem s.subscriptions id = true) :
    disposeSubscription s id =
      { s with
          subscriptions := removeNat s.subscriptions id,
          listeners := removeKey s.listeners id,
          sent := s.sent ++ [⟨"service_framework3_rpc", id, .disposeObservable⟩] } := by
  unfold disposeSubscription
  rw [hsub]
  simp

/-- C6.  Unsubscribing from an active observable subscription sends exactly
one `DisposeObservable` frame bearing the original request id, removes the
local listener entry for that id, and afterwards an inbound frame for that
id leaves the state unchanged — it is dropped, not delivered to the
subscriber. -/
theorem C6_unsubscribe_disposes (s : ClientState) (id : Nat)
    (hsub : bmem s.subscriptions id = true) :
    clientStep s (.unsubscribe id) = some (disposeSubscription s id) ∧
    (disposeSubscription s id).sent =
        s.sent ++ [⟨"service_framework3_rpc", id, .disposeObservable⟩] ∧
    afind (disposeSubscription s id).listeners id = none ∧
    ∀ h e r, clientStep (disposeSubscription s id)
        (.frame SERVICE_FRAMEWORK3_CHANNEL id h e r) =
        some (disposeSubscription s id) := by
  have hgone : afind (disposeSubscription s id).listeners id = none := by
    rw [dispose_active_eq s id hsub]
    exact afind_removeKey_self _ _
  refine ⟨by simp [clientStep], ?_, hgone, ?_⟩
  · rw [dispose_active_eq s id hsub]
  · intro h e r
    exact late_frame_noop _ _ _ _ _ hgone

/-- Witness for C6: unsubscribing the concrete subscription emits the
dispose frame and drops late frames. -/
theorem C6_unsubscribe_disposes_witness :
    clientStep csObservable (.unsubscribe 1) = some (disposeSubscription csObservable 1) ∧
    (disposeSubscription csObservable 1).sent =
        csObservable.sent ++ [⟨"service_framework3_rpc", 1, .disposeObservable⟩] ∧
    afind (disposeSubscription csObservable 1).listeners 1 = none ∧
    ∀ h e r, clientStep (disposeSubscription csObservable 1)
        (.frame SERVICE_FRAMEWORK3_CHANNEL 1 h e r) =
        some (disposeSubscription csObservable 1) :=
  C6_unsubscribe_disposes csObservable 1 (by decide)

theorem dispose_timers (s : ClientState) (id : Nat) :
    (disposeSubscription s id).timers = s.timers := by
  unfold disposeSubscription
  split <;> rfl

theorem emitResponse_timers (s : ClientState) (id : Nat) (h : Bool)
    (e : EncodedError) (r : RespResult) :
    (emitResponse s id h e r).timers = s.timers := by
  cases hfind : afind s.listeners id with
  | none => rw [emitResponse_no_listener _ _ _ _ _ hfind]
  | some mode =>
      cases mode with
      | once =>
          rw [emitResponse_once_eq _ _ _ _ _ hfind]
          exact emitOnce_timers _ _ _ _ _
      | onEach =>
          rw [emitResponse_onEach_eq _ _ _ _ _ hfind]
          rcases emitOnEach_eta s id h e r with heq | ⟨d, heq⟩ | ⟨d, heq⟩
          · rw [heq]
          · rw [heq]
          · rw [heq, dispose_timers]

theorem bmem_removeNat_true (l : List Nat) (k id : Nat)
    (h : bmem (removeNat l k) id = true) : bmem l id = true :=
  bmem_true_of_mem _ _ (mem_removeNat _ _ _ (mem_of_bmem _ _ h))

theorem subscribe_timers (s : ClientState) (id : Nat) :
    (subscribeObservable s id).timers = s.timers := by
  cases hobs : afind s.observables id with
  | none => rw [subscribe_no_obs _ _ hobs]
  | some m =>
      cases hsub : bmem s.subscriptions id with
      | true => rw [subscribe_already_active _ _ _ hobs hsub]
      | false => rw [subscribe_active_eq _ _ _ hobs hsub]

/-- C7 (amended).  A timeout timer is armed exactly by promise-shaped calls:
the `promise` branch of `_sendMessageAndListenForResult` registers one,
while the `void` and `observable` branches register none — an observable
entry never carries a timer, so no event can arm one for it. -/
theorem C7_timers_only_promise :
    (∀ s c, (applyCall s c).timers =
        s.timers ++ (if ClientCall.returnType c = .promise then [s.rpcRequestId] else [])) ∧
    (∀ s e s' id, clientStep s e = some s' → bmem s'.timers id = true →
      bmem s.timers id = true ∨
        ∃ c, e = .call c ∧ ClientCall.returnType c = .promise ∧ id = s.rpcRequestId) := by
  constructor
  · intro s c
    unfold applyCall
    cases c.returnType <;> simp
  · intro s e s' id hstep hmem
    cases e with
    | call c =>
        simp [clientStep] at hstep
        rw [← hstep] at hmem
        unfold applyCall at hmem
        cases hrt : c.returnType with
        | void =>
            rw [hrt] at hmem
            exact Or.inl hmem
        | promise =>
            rw [hrt] at hmem
            by_cases hid : id = s.rpcRequestId
            · exact Or.inr ⟨c, rfl, hrt, hid⟩
            · rw [bmem_append_single_ne _ _ _ (fun hc => hid hc.symm)] at hmem
              exact Or.inl hmem
        | observable =>
            rw [hrt] at hmem
            exact Or.inl hmem
    | frame ch rid hb err r =>
        simp only [clientStep] at hstep
        split at hstep
        · injection hstep with h2
          rw [← h2, emitResponse_timers] at hmem
          exact Or.inl hmem
        · exact absurd hstep (by simp)
    | timerFire rid =>
        simp [clientStep] at hstep
        rw [← hstep] at hmem
        unfold fireTimer at hmem
        split at hmem
        · rw [settle_timers] at hmem
          exact Or.inl (bmem_removeNat_true _ _ _ hmem)
        · exact Or.inl hmem
    | subscribe rid =>
        simp [clientStep] at hstep
        rw [← hstep, subscribe_timers] at hmem
        exact Or.inl hmem
    | unsubscribe rid =>
        simp [clientStep] at hstep
        rw [← hstep, dispose_timers] at hmem
        exact Or.inl hmem

/-- Witness for C7 (amended): a promise call arms a timer for its id; an
observable call arms none. -/
theorem C7_timers_only_promise_witness :
    (applyCall initClient (.createRemoteObject "Session" [])).timers =
        initClient.timers ++
          (if ClientCall.returnType (.createRemoteObject "Session" []) = .promise
            then [initClient.rpcRequestId] else []) ∧
    (applyCall initClient (.callRemoteFunction "tail" .observable [])).timers =
        initClient.timers ++
          (if ClientCall.returnType (.callRemoteFunction "tail" .observable []) = .promise
            then [initClient.rpcRequestId] else []) :=
  ⟨C7_timers_only_promise.1 initClient (.createRemoteObject "Session" []),
    C7_timers_only_promise.1 initClient (.callRemoteFunction "tail" .observable [])⟩

/-- Counterexample for C7 as stated: after an observable-shaped call whose
returned observable has been subscribed, the RPC table holds an entry (the
`on` listener for id 1) but the timer list is empty — neither the call nor
the subscription factory contains a `setTimeout`, so the entry carries no
timer even before the first frame arrives. -/
theorem C7_observable_no_timer_counterexample :
    clientRun initClient
        [.call (.callRemoteFunction "tail" .observable []), .subscribe 1] =
        some csObservable ∧
      afind csObservable.listeners 1 = some .onEach ∧
      csObservable.timers = [] := by
  refine ⟨by decide, by decide, rfl⟩

/-- C8.  `decodeError` reconstructs errors faithfully: an encoded error
object yields an `Error` whose `message`, `code` and `stack` equal the
encoded fields (`code` staying absent when the encoded object has none), a
primitive is surfaced as-is, and a `hadError` response frame rejects the
pending promise with exactly the decoded error. -/
theorem C8_decodeError_faithful :
    (∀ m c k, decodeError (.obj m c k) = .err m c k) ∧
    (∀ p, decodeError (.prim p) = .prim p) ∧
    (∀ s id e r, afind s.listeners id = some .once → afind s.settled id = none →
      afind (emitResponse s id true e r).settled id =
        some (.rejected (decodeError e))) := by
  refine ⟨fun m c k => rfl, fun p => rfl, fun s id e r hfind hnone => ?_⟩
  rw [emitResponse_once_eq _ _ _ _ _ hfind]
  simpa using emitOnce_settled_self s id true e r hnone

/-- Witness for C8: decoding `{message:"boom", code:"EBOOM"}` keeps both
fields and no stack, and an error response rejects the pending promise with
that decoded error. -/
theorem C8_decodeError_faithful_witness :
    decodeError (.obj (some "boom") (some "EBOOM") none) =
        .err (some "boom") (some "EBOOM") none ∧
      afind (emitResponse csPromisePending 1 true
          (.obj (some "boom") (some "EBOOM") none) (.value 0)).settled 1 =
        some (.rejected (decodeError (.obj (some "boom") (some "EBOOM") none))) :=
  ⟨C8_decodeError_faithful.1 (some "boom") (some "EBOOM") none,
    C8_decodeError_faithful.2.2 csPromisePending 1
      (.obj (some "boom") (some "EBOOM") none) (.value 0) (by decide) (by decide)⟩

/-! ## Server socket layer lemmas (C3, C4, C5, C9, C10) -/

theorem removeFirstTag_append_fresh (q : List QMsg) (t : Nat) (d : String)
    (h : ∀ x ∈ q, x.tag ≠ t) : removeFirstTag (q ++ [⟨t, d⟩]) t = q := by
  induction q with
  | nil => simp [removeFirstTag]
  | cons m ms ih =>
      have hm : m.tag ≠ t := h m (by simp)
      have ih' := ih (fun x hx => h x (by simp [hx]))
      simp [removeFirstTag, hm, ih']

theorem sendSocketMessage_no_socket (s : ServerState) (cid : String) (d : String)
    (ok : Bool) (c : SocketClient) (hget : afind s.clients cid = some c)
    (hsock : c.socket = none) :
    sendSocketMessage s cid d ok =
      { s with
          nextTag := s.nextTag + 1,
          clients := aset s.clients cid
            { c with messageQueue := c.messageQueue ++ [⟨s.nextTag, d⟩] } } := by
  obtain ⟨ci, cs, sock, q⟩ := c
  have hs : sock = none := hsock
  subst hs
  unfold sendSocketMessage
  rw [hget]

theorem sendSocketMessage_fail (s : ServerState) (cid : String) (d : String)
    (c : SocketClient) (sid : Nat) (hget : afind s.clients cid = some c)
    (hsock : c.socket = some sid) :
    sendSocketMessage s cid d false =
      { s with
          nextTag := s.nextTag + 1,
          clients := aset s.clients cid
            { c with messageQueue := c.messageQueue ++ [⟨s.nextTag, d⟩] },
          attempts := s.attempts ++ [(sid, d)],
          warnings := s.warnings + 1 } := by
  obtain ⟨ci, cs, sock, q⟩ := c
  have hs : sock = some sid := hsock
  subst hs
  unfold sendSocketMessage
  rw [hget]
  rfl

theorem sendSocketMessage_ok (s : ServerState) (cid : String) (d : String)
    (c : SocketClient) (sid : Nat) (hget : afind s.clients cid = some c)
    (hsock : c.socket = some sid)
    (hfresh : ∀ x ∈ c.messageQueue, x.tag ≠ s.nextTag) :
    sendSocketMessage s cid d true =
      { s with
          nextTag := s.nextTag + 1,
          clients := aset s.clients cid c,
          attempts := s.attempts ++ [(sid, d)],
          delivered := s.delivered ++ [(sid, s.nextTag, d)] } := by
  obtain ⟨ci, cs, sock, q⟩ := c
  have hs : sock = some sid := hsock
  subst hs
  unfold sendSocketMessage
  rw [hget]
  have hq : removeFirstTag (q ++ [⟨s.nextTag, d⟩]) s.nextTag = q :=
    removeFirstTag_append_fresh q s.nextTag d hfresh
  simp [hq]

theorem sendSocketMessage_with_socket_fields (s : ServerState) (cid : String)
    (d : String) (ok : Bool) (c : SocketClient) (sid : Nat)
    (hget : afind s.clients cid = some c) (hsock : c.socket = some sid) :
    (sendSocketMessage s cid d ok).attempts = s.attempts ++ [(sid, d)] ∧
    (∃ c', afind (sendSocketMessage s cid d ok).clients cid = some c' ∧
      c'.id = c.id ∧ c'.subscriptions = c.subscriptions ∧ c'.socket = some sid) ∧
    (sendSocketMessage s cid d ok).closedSockets = s.closedSockets ∧
    (sendSocketMessage s cid d ok).socketOwner = s.socketOwner := by
  obtain ⟨ci, cs, sock, q⟩ := c
  have hs : sock = some sid := hsock
  subst hs
  unfold sendSocketMessage
  rw [hget]
  cases ok
  · exact ⟨rfl, ⟨_, afind_aset_self _ _ _, rfl, rfl, rfl⟩, rfl, rfl⟩
  · exact ⟨rfl, ⟨_, afind_aset_self _ _ _, rfl, rfl, rfl⟩, rfl, rfl⟩

theorem flushQueue_spec (cid : String) (sid : Nat) :
    ∀ (msgs : List QMsg) (oks : List Bool) (s : ServerState) (c : SocketClient),
      afind s.clients cid = some c → c.socket = some sid →
      (flushQueue s cid msgs oks).attempts =
          s.attempts ++ msgs.map (fun m => (sid, m.data)) ∧
      (∃ c', afind (flushQueue s cid msgs oks).clients cid = some c' ∧
        c'.id = c.id ∧ c'.subscriptions = c.subscriptions ∧ c'.socket = some sid) ∧
      (flushQueue s cid msgs oks).closedSockets = s.closedSockets ∧
      (flushQueue s cid msgs oks).socketOwner = s.socketOwner := by
  intro msgs
  induction msgs with
  | nil =>
      intro oks s c hget hsock
      exact ⟨by simp [flushQueue], ⟨c, hget, rfl, rfl, hsock⟩, rfl, rfl⟩
  | cons m ms ih =>
      intro oks s c hget hsock
      obtain ⟨hatt, ⟨c', hget', hid', hsubs', hsock'⟩, hclosed, howner⟩ :=
        sendSocketMessage_with_socket_fields s cid m.data (oks.headD true) c sid hget hsock
      obtain ⟨hatt2, ⟨c'', hget'', hid'', hsubs'', hsock''⟩, hclosed2, howner2⟩ :=
        ih oks.tail (sendSocketMessage s cid m.data (oks.headD true)) c' hget' hsock'
      refine ⟨?_, ⟨c'', hget'', ?_, ?_, hsock''⟩, ?_, ?_⟩
      · show (flushQueue (sendSocketMessage s cid m.data (oks.headD true)) cid ms
          oks.tail).attempts = _
        rw [hatt2, hatt]
        simp
      · rw [hid'', hid']
      · rw [hsubs'', hsubs']
      · show (flushQueue (sendSocketMessage s cid m.data (oks.headD true)) cid ms
          oks.tail).closedSockets = _
        rw [hclosed2, hclosed]
      · show (flushQueue (sendSocketMessage s cid m.data (oks.headD true)) cid ms
          oks.tail).socketOwner = _
        rw [howner2, howner]

/-- Net effect of the reconnect handler on an existing session: the old
socket (if any) is closed, the record survives with the new socket
attached, and every queued frame is sent to the new socket in insertion
order. -/
theorem onClientIdMessage_spec (s : ServerState) (sid : Nat) (cid : String)
    (oks : List Bool) (c : SocketClient) (hget : afind s.clients cid = some c) :
    (onClientIdMessage s sid cid oks).closedSockets =
        s.closedSockets ++ c.socket.toList ∧
    (∃ c', afind (onClientIdMessage s sid cid oks).clients cid = some c' ∧
      c'.id = c.id ∧ c'.subscriptions = c.subscriptions ∧ c'.socket = some sid) ∧
    (onClientIdMessage s sid cid oks).attempts =
        s.attempts ++ c.messageQueue.map (fun m => (sid, m.data)) := by
  obtain ⟨ci, cs, sock, q⟩ := c
  cases sock with
  | none =>
      have hstate : onClientIdMessage s sid cid oks =
          flushQueue
            { s with
                clients := aset s.clients cid ⟨ci, cs, some sid, []⟩,
                socketOwner := s.socketOwner ++ [(sid, cid)] } cid q oks := by
        unfold onClientIdMessage
        rw [hget]
        rfl
      obtain ⟨hatt, hc, hclosed, -⟩ :=
        flushQueue_spec cid sid q oks
          { s with
              clients := aset s.clients cid ⟨ci, cs, some sid, []⟩,
              socketOwner := s.socketOwner ++ [(sid, cid)] }
          ⟨ci, cs, some sid, []⟩ (afind_aset_self _ _ _) rfl
      rw [hstate]
      exact ⟨by rw [hclosed]; simp, hc, by rw [hatt]⟩
  | some old =>
      have hstate : onClientIdMessage s sid cid oks =
          flushQueue
            { s with
                closedSockets := s.closedSockets ++ [old],
                clients := aset s.clients cid ⟨ci, cs, some sid, []⟩,
                socketOwner := s.socketOwner ++ [(sid, cid)] } cid q oks := by
        unfold onClientIdMessage
        rw [hget]
        rfl
      obtain ⟨hatt, hc, hclosed, -⟩ :=
        flushQueue_spec cid sid q oks
          { s with
              closedSockets := s.closedSockets ++ [old],
              clients := aset s.clients cid ⟨ci, cs, some sid, []⟩,
              socketOwner := s.socketOwner ++ [(sid, cid)] }
          ⟨ci, cs, some sid, []⟩ (afind_aset_self _ _ _) rfl
      rw [hstate]
      exact ⟨by rw [hclosed]; simp, hc, by rw [hatt]⟩

/-- C3.  A reconnecting client id with an existing session: the previous
socket (if any) is closed, the session record itself survives — same `id`,
same `subscriptions` — with the new socket attached, and every frame queued
while the session had no socket is sent to the new socket in its original
insertion order. -/
theorem C3_reconnect_preserves_session (s : ServerState) (sid : Nat) (cid : String)
    (oks : List Bool) (c : SocketClient) (hget : afind s.clients cid = some c) :
    (onClientIdMessage s sid cid oks).closedSockets =
        s.closedSockets ++ c.socket.toList ∧
    (∃ c', afind (onClientIdMessage s sid cid oks).clients cid = some c' ∧
      c'.id = c.id ∧ c'.subscriptions = c.subscriptions ∧ c'.socket = some sid) ∧
    (onClientIdMessage s sid cid oks).attempts =
        s.attempts ++ c.messageQueue.map (fun m => (sid, m.data)) :=
  onClientIdMessage_spec s sid cid oks c hget

/-- Witness for C3: socket 2 takes over client `c`; socket 1 is closed and
`A`, `B` are sent to socket 2 in order. -/
theorem C3_reconnect_preserves_session_witness :
    (onClientIdMessage svWithQueue 2 "c" []).closedSockets =
        svWithQueue.closedSockets ++ svClient.socket.toList ∧
    (∃ c', afind (onClientIdMessage svWithQueue 2 "c" []).clients "c" = some c' ∧
      c'.id = svClient.id ∧ c'.subscriptions = svClient.subscriptions ∧
      c'.socket = some 2) ∧
    (onClientIdMessage svWithQueue 2 "c" []).attempts =
        svWithQueue.attempts ++ svClient.messageQueue.map (fun m => (2, m.data)) :=
  C3_reconnect_preserves_session svWithQueue 2 "c" [] svClient (by decide)

/-- C4 (amended).  Queue discipline of `_sendSocketMessage`: while a socket
is attached every frame is attempted immediately in call order, a
successful send drains the just-sent frame at once (net queue unchanged),
and frames inserted while no socket is attached are held — not dropped —
and are all re-sent in insertion order when a socket attaches.  (A frame
whose send fails stays queued while later successful frames drain, so
draining is *not* strictly in insertion order under send failures — see the
counterexample.) -/
theorem C4_queue_discipline :
    (∀ s cid d ok c sid, afind s.clients cid = some c → c.socket = some sid →
      (sendSocketMessage s cid d ok).attempts = s.attempts ++ [(sid, d)]) ∧
    (∀ s cid d c sid, afind s.clients cid = some c → c.socket = some sid →
      (∀ x ∈ c.messageQueue, x.tag ≠ s.nextTag) →
      sendSocketMessage s cid d true =
        { s with
            nextTag := s.nextTag + 1,
            clients := aset s.clients cid c,
            attempts := s.attempts ++ [(sid, d)],
            delivered := s.delivered ++ [(sid, s.nextTag, d)] }) ∧
    (∀ s cid d ok c, afind s.clients cid = some c → c.socket = none →
      sendSocketMessage s cid d ok =
        { s with
            nextTag := s.nextTag + 1,
            clients := aset s.clients cid
              { c with messageQueue := c.messageQueue ++ [⟨s.nextTag, d⟩] } }) ∧
    (∀ s sid cid oks c, afind s.clients cid = some c →
      (onClientIdMessage s sid cid oks).attempts =
        s.attempts ++ c.messageQueue.map (fun m => (sid, m.data))) :=
  ⟨fun s cid d ok c sid hget hsock =>
      (sendSocketMessage_with_socket_fields s cid d ok c sid hget hsock).1,
    fun s cid d c sid hget hsock hfresh =>
      sendSocketMessage_ok s cid d c sid hget hsock hfresh,
    fun s cid d ok c hget hsock =>
      sendSocketMessage_no_socket s cid d ok c hget hsock,
    fun s sid cid oks c hget =>
      (onClientIdMessage_spec s sid cid oks c hget).2.2⟩

/-- Witness for C4 (amended): a successful send with a socket drains
immediately; a send with no socket is held in the queue. -/
theorem C4_queue_discipline_witness :
    sendSocketMessage svEmptyQueue "c" "X" true =
      { svEmptyQueue with
          nextTag := svEmptyQueue.nextTag + 1,
          clients := aset svEmptyQueue.clients "c" svClientEmpty,
          attempts := svEmptyQueue.attempts ++ [(1, "X")],
          delivered := svEmptyQueue.delivered ++ [(1, svEmptyQueue.nextTag, "X")] } ∧
    sendSocketMessage svNoSock "c" "X" true =
      { svNoSock with
          nextTag := svNoSock.nextTag + 1,
          clients := aset svNoSock.clients "c"
            { svClientNoSock with
                messageQueue := svClientNoSock.messageQueue ++
                  [⟨svNoSock.nextTag, "X"⟩] } } :=
  ⟨C4_queue_discipline.2.1 svEmptyQueue "c" "X" svClientEmpty 1 (by decide) (by decide)
      (by decide),
    C4_queue_discipline.2.2.1 svNoSock "c" "X" true svClientNoSock (by decide)
      (by decide)⟩

/-- Counterexample for C4 as stated: with a socket attached, frame `A` is
inserted before frame `B`; `A`'s send fails and `B`'s succeeds, so `B` is
drained (delivered) while `A` is still in the queue — the outbound queue
does not drain strictly in insertion order once a socket is present. -/
theorem C4_out_of_order_drain_counterexample :
    (serverRun initServer
        [.clientIdMessage 1 "c" [], .send "c" "A" false, .send "c" "B" true]).map
        (fun s => (s.delivered.map (fun x => x.2.2),
          (afind s.clients "c").map (fun c => c.messageQueue.map QMsg.data))) =
      some (["B"], some ["A"]) := by
  decide

/-- C5 (amended).  A frame lacking the transport's protocol tag (server
side) or carrying the wrong channel tag (client side) makes the receiving
dispatcher fail its `invariant` — an exception, modelled as `none`: no
handler is invoked, but the frame is not warned-and-dropped and processing
does not continue. -/
theorem C5_protocol_mismatch_throws :
    (∀ s cid m, m.protocol = none → onSocketMessage s cid m = none) ∧
    (∀ s cid m p, m.protocol = some p → p ≠ SERVICE_FRAMEWORK3_CHANNEL →
      onSocketMessage s cid m = none) ∧
    (∀ s ch id h e r, ch ≠ SERVICE_FRAMEWORK3_CHANNEL →
      clientStep s (.frame ch id h e r) = none) := by
  refine ⟨?_, ?_, ?_⟩
  · intro s cid m hm
    unfold onSocketMessage
    rw [hm]
  · intro s cid m p hm hp
    unfold onSocketMessage
    rw [hm]
    simp [hp]
  · intro s ch id h e r hch
    simp [clientStep, hch]

/-- Witness for C5 (amended): a protocol-less frame and a wrong-channel
frame both make the respective dispatcher throw. -/
theorem C5_protocol_mismatch_throws_witness :
    onSocketMessage initServer "c" ⟨none, "x"⟩ = none ∧
    onSocketMessage initServer "c" ⟨some "bogus", "x"⟩ = none ∧
    clientStep initClient (.frame "bogus" 1 false .null (.value 0)) = none :=
  ⟨C5_protocol_mismatch_throws.1 initServer "c" ⟨none, "x"⟩ (by decide),
    C5_protocol_mismatch_throws.2.1 initServer "c" ⟨some "bogus", "x"⟩ "bogus"
      (by decide) (by decide),
    C5_protocol_mismatch_throws.2.2 initClient "bogus" 1 false .null (.value 0)
      (by decide)⟩

/-- Counterexample for C5 as stated: after a frame without a protocol tag,
the run is `none` — the `invariant` threw — so the valid frame that follows
is never handled; the claim's promise that the frame is logged and dropped
while the connection remains able to process subsequent frames fails. -/
theorem C5_drop_and_continue_counterexample :
    serverRun initServer
        [.inbound "c" ⟨none, "x"⟩,
         .inbound "c" ⟨some SERVICE_FRAMEWORK3_CHANNEL, "y"⟩] = none := by
  decide

/-- C9.  A `close` event from a socket that has been superseded (the session
now holds a different socket) leaves the session untouched; a `close` from
the currently attached socket detaches it. -/
theorem C9_close_only_detaches_current (s : ServerState) (sid : Nat) (cid : String)
    (c : SocketClient) (hown : afind s.socketOwner sid = some cid)
    (hget : afind s.clients cid = some c) :
    (∀ y, c.socket = some y → y ≠ sid → onSocketClose s sid = s) ∧
    (c.socket = some sid → onSocketClose s sid =
      { s with clients := aset s.clients cid { c with socket := none } }) := by
  constructor
  · intro y hy hne
    simp only [onSocketClose, hown, hget]
    rw [hy, if_neg (by simp [hne])]
  · intro hy
    simp only [onSocketClose, hown, hget]
    rw [hy, if_pos rfl]

/-- Witness for C9: a late close from superseded socket 1 is a no-op; a
close from current socket 2 detaches it. -/
theorem C9_close_only_detaches_current_witness :
    onSocketClose svC9 1 = svC9 ∧
    onSocketClose svC9 2 =
      { svC9 with clients := aset svC9.clients "c" { svC9client with socket := none } } :=
  ⟨(C9_close_only_detaches_current svC9 1 "c" svC9client (by decide) (by decide)).1
      2 (by decide) (by decide),
    (C9_close_only_detaches_current svC9 2 "c" svC9client (by decide) (by decide)).2
      (by decide)⟩

/-- C10.  Frame retention: `_sendSocketMessage` pushes the wrapped frame on
the client's queue before any transmission attempt — a failed send leaves
it queued (with a warning counted) and delivers nothing, a successful send
removes exactly the acknowledged frame, a send with no socket holds the
frame without any attempt — and on the next socket attachment every queued
frame is re-sent. -/
theorem C10_frame_retention :
    (∀ s cid d c sid, afind s.clients cid = some c → c.socket = some sid →
      sendSocketMessage s cid d false =
        { s with
            nextTag := s.nextTag + 1,
            clients := aset s.clients cid
              { c with messageQueue := c.messageQueue ++ [⟨s.nextTag, d⟩] },
            attempts := s.attempts ++ [(sid, d)],
            warnings := s.warnings + 1 }) ∧
    (∀ s cid d c sid, afind s.clients cid = some c → c.socket = some sid →
      (∀ x ∈ c.messageQueue, x.tag ≠ s.nextTag) →
      sendSocketMessage s cid d true =
        { s with
            nextTag := s.nextTag + 1,
            clients := aset s.clients cid c,
            attempts := s.attempts ++ [(sid, d)],
            delivered := s.delivered ++ [(sid, s.nextTag, d)] }) ∧
    (∀ s cid d ok c, afind s.clients cid = some c → c.socket = none →
      sendSocketMessage s cid d ok =
        { s with
            nextTag := s.nextTag + 1,
            clients := aset s.clients cid
              { c with messageQueue := c.messageQueue ++ [⟨s.nextTag, d⟩] } }) ∧
    (∀ s sid cid oks c, afind s.clients cid = some c →
      (onClientIdMessage s sid cid oks).attempts =
        s.attempts ++ c.messageQueue.map (fun m => (sid, m.data))) :=
  ⟨fun s cid d c sid hget hsock => sendSocketMessage_fail s cid d c sid hget hsock,
    fun s cid d c sid hget hsock hfresh =>
      sendSocketMessage_ok s cid d c sid hget hsock hfresh,
    fun s cid d ok c hget hsock => sendSocketMessage_no_socket s cid d ok c hget hsock,
    fun s sid cid oks c hget => (onClientIdMessage_spec s sid cid oks c hget).2.2⟩

/-- Witness for C10: a failed send leaves the frame queued and delivers
nothing; the subsequent reconnect re-sends the retained frame. -/
theorem C10_frame_retention_witness :
    sendSocketMessage svEmptyQueue "c" "X" false =
      { svEmptyQueue with
          nextTag := svEmptyQueue.nextTag + 1,
          clients := aset svEmptyQueue.clients "c"
            { svClientEmpty with
                messageQueue := svClientEmpty.messageQueue ++
                  [⟨svEmptyQueue.nextTag, "X"⟩] },
          attempts := svEmptyQueue.attempts ++ [(1, "X")],
          warnings := svEmptyQueue.warnings + 1 } ∧
    (onClientIdMessage svWithQueue 2 "c" []).attempts =
      svWithQueue.attempts ++ svClient.messageQueue.map (fun m => (2, m.data)) :=
  ⟨C10_frame_retention.1 svEmptyQueue "c" "X" svClientEmpty 1 (by decide) (by decide),
    C10_frame_retention.2.2.2 svWithQueue 2 "c" [] svClient (by decide)⟩

end Nuclide
